import Mathlib

/-!
# Realsense beacon: geometry, stepper controller and acquisition loop

A shallow embedding of `autonomy/realsense/realsense.cpp`, of the pose display of
`autonomy/include/aurora/display.h` and of `state_to_string` of
`autonomy/include/aurora/robot.cpp`.

Conventions of the embedding.

* `float`, `double` and `real_t` values are exact numbers: the leaf components are
  written over an arbitrary ordered field `R`, the parts that need `cos`, `sin` or
  `atan2` over the real numbers.
* `int` values are integers, bytes are natural numbers reduced modulo 256 where the
  source converts to `unsigned char`. Where the source converts a floating value to
  `int` the result is kept within the 32 bits of `int` (`float_to_int`).
* The global `stepper_serial` and the global flag `pan_stepper` are passed explicitly.
* Console output, image files and debug windows are left out: they do not feed back
  into the state of the loop.
-/

namespace Realsense

section Leaf

variable {R : Type} [LinearOrderedField R] [FloorRing R]

/-- Truncation of a number toward zero: the fractional part is discarded. The result is
an unbounded integer. -/
def trunc (x : R) : Int :=
  if 0 ≤ x then Int.floor x else Int.ceil x

/-- The least value of the 32-bit `int`. -/
def INT_MIN : Int := -2147483648

/-- The greatest value of the 32-bit `int`. -/
def INT_MAX : Int := 2147483647

/-- The implicit conversion of a floating value to `int`, as in `int step=...;`: the value
truncated toward zero when that fits the 32-bit `int`. For the other values C++ leaves the
conversion undefined; the conversion instruction of x86-64 then delivers `INT_MIN`, and
that is the result taken here. -/
def float_to_int (x : R) : Int :=
  if INT_MIN ≤ trunc x ∧ trunc x ≤ INT_MAX then trunc x else INT_MIN

/-- Modelled from the spec: the 3D vector `vec3` of the osl library, which is not among the
sources: three coordinates. -/
structure vec3 (R : Type) where
  x : R
  y : R
  z : R

/-- Modelled from the spec: `operator+` of `vec3`, the componentwise sum. -/
def vec3.add (a b : vec3 R) : vec3 R := ⟨a.x + b.x, a.y + b.y, a.z + b.z⟩

/-- Modelled from the spec: `operator-` of `vec3`, the componentwise difference. -/
def vec3.sub (a b : vec3 R) : vec3 R := ⟨a.x - b.x, a.y - b.y, a.z - b.z⟩

/-- Modelled from the spec: `operator*` of `vec3`, the scaling by a number. -/
def vec3.scale (a : vec3 R) (k : R) : vec3 R := ⟨a.x * k, a.y * k, a.z * k⟩

/-! ## coord_rotator -/

/-- The class `coord_rotator`: the rotation angle in radians with its cached cosine and
sine. -/
structure coord_rotator (R : Type) where
  angle : R
  c : R
  s : R

/-- The method `coord_rotator::rotate`; the two reference arguments are returned as a
pair. -/
def coord_rotator.rotate (r : coord_rotator R) (x y : R) : R × R :=
  let new_x := x * r.c - y * r.s
  let new_y := x * r.s + y * r.c
  (new_x, new_y)

/-! ## camera_transform -/

/-- The class `camera_transform`: camera origin in world coordinates, the mounting tilt
and the panning rotation. -/
structure camera_transform (R : Type) where
  camera : vec3 R
  camera_tilt : coord_rotator R
  Z_rotation : coord_rotator R

/-- The method `camera_transform::world_from_camera`. -/
def camera_transform.world_from_camera (t : camera_transform R) (point : vec3 R) : vec3 R :=
  let x := point.z
  let y := -point.x
  let z := -point.y
  let yz := t.camera_tilt.rotate y z
  let y := yz.1
  let z := yz.2
  let xy := t.Z_rotation.rotate x y
  let x := xy.1
  let y := xy.2
  let x := x + t.camera.x
  let y := y + t.camera.y
  let z := z + t.camera.z
  ⟨x, y, z⟩

/-! ## realsense_projector -/

/-- The distortion model tag of `rs2_intrinsics`; only the inverse Brown-Conrady model is
told apart by the source. -/
inductive rs2_distortion where
  | inverse_brown_conrady
  | other
  deriving DecidableEq

/-- The fields of `rs2_intrinsics` of librealsense that the projector reads; `coeffs` is the
array of five distortion coefficients. -/
structure rs2_intrinsics (R : Type) where
  width : Nat
  height : Nat
  ppx : R
  ppy : R
  fx : R
  fy : R
  model : rs2_distortion
  coeffs : Fin 5 → R

/-- The body of the two nested loops of the constructor of `realsense_projector`: the
direction stored for pixel `(w,h)`. -/
def pixel_direction (intrinsics : rs2_intrinsics R) (w h : Nat) : R × R :=
  let x := ((w : R) - intrinsics.ppx) / intrinsics.fx
  let y := ((h : R) - intrinsics.ppy) / intrinsics.fy
  if intrinsics.model = rs2_distortion.inverse_brown_conrady then
    let r2 := x * x + y * y
    let f := 1 + intrinsics.coeffs 0 * r2 + intrinsics.coeffs 1 * r2 * r2
      + intrinsics.coeffs 4 * r2 * r2 * r2
    let ux := x * f + 2 * intrinsics.coeffs 2 * x * y + intrinsics.coeffs 3 * (r2 + 2 * x * x)
    let uy := y * f + 2 * intrinsics.coeffs 3 * x * y + intrinsics.coeffs 2 * (r2 + 2 * y * y)
    (ux, uy)
  else
    (x, y)

/-- The class `realsense_projector`. The two `std::vector<float>` tables are maps from the
index to the stored value; an index that was never written holds the initial `0`. -/
structure realsense_projector (R : Type) where
  intrinsics : rs2_intrinsics R
  xdir : Nat → R
  ydir : Nat → R

/-- The inner loop of the constructor: the row `h` of the tables is written for
`w = 0 .. width-1`. -/
def fill_row (intrinsics : rs2_intrinsics R) (h : Nat) (tab : (Nat → R) × (Nat → R)) :
    (Nat → R) × (Nat → R) :=
  (List.range intrinsics.width).foldl
    (fun t w =>
      let d := pixel_direction intrinsics w h
      (Function.update t.1 (h * intrinsics.width + w) d.1,
       Function.update t.2 (h * intrinsics.width + w) d.2))
    tab

/-- The constructor of `realsense_projector`, from the intrinsics of the depth stream of
the frame it is given. -/
def realsense_projector.ctor (intrinsics : rs2_intrinsics R) : realsense_projector R :=
  let tab := (List.range intrinsics.height).foldl
    (fun t h => fill_row intrinsics h t) (fun _ => 0, fun _ => 0)
  ⟨intrinsics, tab.1, tab.2⟩

/-- The method `realsense_projector::lookup`. -/
def realsense_projector.lookup (p : realsense_projector R) (depth : R) (x y : Nat) : vec3 R :=
  let i := y * p.intrinsics.width + x
  ⟨p.xdir i * depth, p.ydir i * depth, depth⟩

/-! ## stepper_controller -/

/-- Modelled from the spec: the byte-oriented serial link `SerialPort` of `serial.cpp`,
which is not among the sources. `rx` holds the bytes that are available to read, oldest
first; `tx` holds the bytes written so far, oldest first. -/
structure SerialPort where
  rx : List Nat
  tx : List Nat

/-- Modelled from the spec: `SerialPort::write`, one byte is appended to the output. -/
def SerialPort.write (p : SerialPort) (b : Nat) : SerialPort :=
  { p with tx := p.tx ++ [b % 256] }

/-- The constant `stepper_angle_to_step`, the scale from degrees to step count. -/
def stepper_angle_to_step : R := 400 / 360

/-- The constant `stepper_angle_zero`, degrees at stepper zero. -/
def stepper_angle_zero : R := -73

/-- The data members of the class `stepper_controller`. -/
structure stepper_controller (R : Type) where
  camera_Z_angle : R
  last_steps : Int
  angle_correction : R

/-- The loop of `read_serial` over the bytes that are available: every byte read sets the
flag and overwrites the angle. -/
def read_serial_loop : List Nat → Bool → R → Bool × R
  | [], read_stuff, angle => (read_stuff, angle)
  | pos255 :: rest, _, _ =>
    read_serial_loop rest true
      (((pos255 % 256 : Nat) : R) / stepper_angle_to_step + stepper_angle_zero)

/-- The method `stepper_controller::read_serial`: drains the link and tells whether
anything was read. -/
def stepper_controller.read_serial (st : stepper_controller R) (port : SerialPort) :
    Bool × stepper_controller R × SerialPort :=
  let r := read_serial_loop port.rx false st.camera_Z_angle
  (r.1, { st with camera_Z_angle := r.2 }, { port with rx := [] })

/-- The method `stepper_controller::seek_steps`. -/
def seek_steps (port : SerialPort) (step : Int) : SerialPort :=
  let step := if step < 0 then 0 else step
  let step := if step > 250 then 250 else step
  port.write (step % 256).toNat

/-- The method `stepper_controller::serial_poll`. -/
def stepper_controller.serial_poll (pan_stepper : Bool) (st : stepper_controller R)
    (port : SerialPort) : Bool × stepper_controller R × SerialPort :=
  if pan_stepper then st.read_serial port else (true, st, port)

/-- The method `stepper_controller::setup_seek`. -/
def stepper_controller.setup_seek (pan_stepper : Bool) (st : stepper_controller R)
    (port : SerialPort) : stepper_controller R × SerialPort :=
  if pan_stepper then
    ({ st with camera_Z_angle := stepper_angle_zero }, port.write 255)
  else (st, port)

/-- The method `stepper_controller::absolute_seek`. -/
def stepper_controller.absolute_seek (pan_stepper : Bool) (st : stepper_controller R)
    (port : SerialPort) (degrees : R) : stepper_controller R × SerialPort :=
  if pan_stepper then
    let step : Int := float_to_int ((degrees - st.angle_correction - stepper_angle_zero)
      * stepper_angle_to_step)
    (st, seek_steps port step)
  else
    ({ st with camera_Z_angle := degrees - st.angle_correction }, port)

/-- The method `stepper_controller::get_angle_deg`. -/
def stepper_controller.get_angle_deg (st : stepper_controller R) : R :=
  st.camera_Z_angle + st.angle_correction

/-! ## marker_watcher_print: data -/

/-- Modelled from the spec: the catalog entry `marker_info_t` of `aruco_marker_IDs.h`, which
is not among the sources, with the fields that `found_marker` reads. -/
structure marker_info_t (R : Type) where
  id : Int
  true_size : R
  side : Int
  weight : R
  shift : vec3 R

/-- The arguments of one call of `robot_markers_all::add`. -/
structure marker_sighting (R : Type) where
  id : Int
  pos : vec3 R
  x_axis : vec3 R
  y_axis : vec3 R
  shift : vec3 R
  weight : R
  side : Int

/-- Modelled from the spec: `robot_markers_all` of `aurora/pose.h`, which is not among the
sources. The set of markers is represented by the sightings handed to `add` since it
was created, most recent first, together with the `beacon` angle. -/
structure robot_markers_all (R : Type) where
  added : List (marker_sighting R)
  beacon : R

/-- Modelled from the spec: `robot_markers_all::add` records the sighting. -/
def robot_markers_all.add (m : robot_markers_all R) (id : Int)
    (pos x_axis y_axis shift : vec3 R) (weight : R) (side : Int) : robot_markers_all R :=
  { m with added := ⟨id, pos, x_axis, y_axis, shift, weight, side⟩ :: m.added }

/-- The data members of the class `marker_watcher_print`; the reference `camera_TF` is
passed to `found_marker` as an argument. -/
structure marker_watcher_print (R : Type) where
  markers : robot_markers_all R
  angle_correction : R

/-- The constructor of `marker_watcher_print`. The initial `beacon` of the fresh marker set
is overwritten before the set is published. -/
def marker_watcher_print.ctor : marker_watcher_print R := ⟨⟨[], 0⟩, 0⟩

/-! ## The acquisition loop of `main`: data and the blocks without trigonometry -/

/-- Modelled from the spec: `obstacle_grid` of `vision/grid.hpp`, which is not among the
sources. The grid is represented by the points deposited with `add` since the last
`clear`, most recent first. -/
structure obstacle_grid (R : Type) where
  points : List (vec3 R)

/-- Modelled from the spec: `obstacle_grid::clear` resets all accumulated cells. -/
def obstacle_grid.clear (_g : obstacle_grid R) : obstacle_grid R := ⟨[]⟩

/-- Modelled from the spec: `obstacle_grid::add` deposits a point. -/
def obstacle_grid.add (g : obstacle_grid R) (p : vec3 R) : obstacle_grid R :=
  ⟨p :: g.points⟩

/-- Modelled from the spec: the record `aurora_detected_obstacle` of
`aurora/beacon_commands.h`, which is not among the sources. -/
structure aurora_detected_obstacle (R : Type) where
  x : R
  y : R
  height : R

/-- Modelled from the spec: the request `aurora_beacon_command` of
`aurora/beacon_commands.h`, which is not among the sources: a letter and an angle in
degrees. The angle is a number; where the source stores it into an `int` it is
converted. -/
structure aurora_beacon_command (R : Type) where
  letter : Char
  angle : R

/-- What one cycle of the loop sends out. -/
inductive Event (R : Type) where
  | response_empty
  | response_obstacles (obstacle_list : List (aurora_detected_obstacle R))
  | shutdown
  | find_obstacles
  | publish (markers : robot_markers_all R)

/-- The settings fixed before the loop starts: the global `pan_stepper`, the flags and
frame sizes chosen from the command line, `depth2cm`, the camera position, the marker
catalog and `find_obstacles` of `find_obstacles.h` (not among the sources). -/
structure Config (R : Type) where
  pan_stepper : Bool
  do_depth : Bool
  do_color : Bool
  depth_w : Nat
  depth_h : Nat
  color_w : Nat
  color_h : Nat
  depth2cm : R
  field_x_beacon : R
  field_y_beacon : R
  get_marker_info : Int → marker_info_t R
  find_obstacles : obstacle_grid R → List (aurora_detected_obstacle R)

/-- The variables that live across iterations of the loop. `depth_to_3D` is the function
static projector, absent until the depth block runs for the first time. -/
structure LoopState (R : Type) where
  stepper : stepper_controller R
  serial : SerialPort
  obstacle_scan : Int
  obstacle_scan_target : Int
  obstacles : obstacle_grid R
  depth_to_3D : Option (realsense_projector R)
  framecount : Int
  writecount : Int

/-- What the capture pipeline and the marker detector hand over in one cycle: the sizes of
the two frames, the depth samples by index, the intrinsics of the depth stream, and the
markers reported by `aruco_loc.find_markers`, each with its matrix and ID. -/
structure Frames (R : Type) where
  depth_width : Nat
  depth_height : Nat
  color_width : Nat
  color_height : Nat
  depth_data : Nat → Nat
  intrinsics : rs2_intrinsics R
  detections : List ((Nat → Nat → R) × Int)

/-- Everything the environment supplies to one cycle: the pending request if any, the
bytes that arrive on the serial link before each poll made while an `H` request waits,
the bytes that arrive before the poll of the cycle, the frames and the key returned by
`waitKey`. -/
structure CycleInput (R : Type) where
  request : Option (aurora_beacon_command R)
  home_wait : List (List Nat)
  serial_in : List Nat
  frames : Frames R
  key : Int

/-- The wait `while (!stepper.serial_poll()) { }` of the `H` request. Each element of the
list is what has come in on the link when the next poll is made; when nothing more
arrives and nothing was read the source never leaves the loop, which is `none`. -/
def wait_for_home (pan_stepper : Bool) :
    List (List Nat) → stepper_controller R → SerialPort →
      Option (stepper_controller R × SerialPort)
  | [], st, port =>
    let r := st.serial_poll pan_stepper port
    if r.1 then some r.2 else none
  | arrived :: later, st, port =>
    let r := st.serial_poll pan_stepper { port with rx := port.rx ++ arrived }
    if r.1 then some r.2 else wait_for_home pan_stepper later r.2.1 r.2.2

/-- The command dispatch of the loop, for a request that `command_server.request`
delivered; `none` when the `H` request waits forever. -/
def handle_request (cfg : Config R) (s : LoopState R) (cmd : aurora_beacon_command R)
    (home_wait : List (List Nat)) : Option (LoopState R × List (Event R)) :=
  let letter := cmd.letter.toUpper
  if letter = 'P' then
    let r := s.stepper.absolute_seek cfg.pan_stepper s.serial cmd.angle
    some ({ s with stepper := r.1, serial := r.2 }, [Event.response_empty])
  else if letter = 'O' then
    some (s, [Event.shutdown, Event.response_empty])
  else if letter = 'H' then
    let r := s.stepper.setup_seek cfg.pan_stepper s.serial
    match wait_for_home cfg.pan_stepper home_wait r.1 r.2 with
    | none => none
    | some (st, port) =>
      let st := { st with angle_correction := 0 }
      let r := st.absolute_seek cfg.pan_stepper port cmd.angle
      some ({ s with stepper := r.1, serial := r.2 }, [Event.response_empty])
  else if letter = 'T' then
    let r := s.stepper.absolute_seek cfg.pan_stepper s.serial cmd.angle
    some ({ s with stepper := r.1, serial := r.2,
                   obstacle_scan_target := float_to_int cmd.angle,
                   obstacles := s.obstacles.clear,
                   obstacle_scan := 18 }, [])
  else
    some (s, [Event.response_empty])

/-- The network block at the top of the loop body: nothing happens without a request. -/
def check_network (cfg : Config R) (s : LoopState R)
    (request : Option (aurora_beacon_command R)) (home_wait : List (List Nat)) :
    Option (LoopState R × List (Event R)) :=
  match request with
  | none => some (s, [])
  | some cmd => handle_request cfg s cmd home_wait

/-- The value of the local `do_scan` once the gate on the stepper angle has run. -/
def scan_gate (cfg : Config R) (s : LoopState R) : Bool :=
  let do_scan := decide (s.obstacle_scan > 0)
  if do_scan && cfg.pan_stepper
      && decide (|(s.obstacle_scan_target : R) - s.stepper.get_angle_deg| > 4) then
    false
  else do_scan

/-- The body of the two loops over the depth image, for the pixel `(x,y)`. -/
def accumulate_pixel (cfg : Config R) (camera_TF : camera_transform R)
    (depth_to_3D : realsense_projector R) (depth_data : Nat → Nat) (y : Nat)
    (obstacles : obstacle_grid R) (x : Nat) : obstacle_grid R :=
  let i := y * cfg.depth_w + x
  let depth : R := ((depth_data i % 65536 : Nat) : R) * cfg.depth2cm
  if depth > 0 then
    let cam := depth_to_3D.lookup depth x y
    let world := camera_TF.world_from_camera cam
    if world.z < 150 ∧ world.z > -50 then obstacles.add world else obstacles
  else obstacles

/-- The left margin `realsense_left_start` of the depth image. -/
def realsense_left_start : Nat := 50

/-- The two loops over the depth image: rows `0 .. depth_h-1`, columns
`realsense_left_start .. depth_w-1`. -/
def accumulate_depth (cfg : Config R) (camera_TF : camera_transform R)
    (depth_to_3D : realsense_projector R) (depth_data : Nat → Nat)
    (obstacles : obstacle_grid R) : obstacle_grid R :=
  (List.range cfg.depth_h).foldl
    (fun g y =>
      (List.range' realsense_left_start (cfg.depth_w - realsense_left_start)).foldl
        (accumulate_pixel cfg camera_TF depth_to_3D depth_data y) g)
    obstacles

/-- The function static `depth_to_3D` of the depth block: built from the frame at hand the
first time the block runs, kept afterwards. -/
def static_projector (stored : Option (realsense_projector R)) (frames : Frames R) :
    realsense_projector R :=
  match stored with
  | some p => p
  | none => realsense_projector.ctor frames.intrinsics

/-- The depth block of the loop body, from the computation of `do_scan` to the end of the
scan. The source computes `do_scan` and does not read it afterwards: the block is entered
on `do_depth || obstacle_scan>0`. -/
def depth_block (cfg : Config R) (s : LoopState R) (camera_TF : camera_transform R)
    (frames : Frames R) : LoopState R × List (Event R) :=
  let _do_scan := scan_gate cfg s
  if cfg.do_depth ∨ s.obstacle_scan > 0 then
    let depth_to_3D := static_projector s.depth_to_3D frames
    let obstacles := accumulate_depth cfg camera_TF depth_to_3D frames.depth_data s.obstacles
    let s := { s with depth_to_3D := some depth_to_3D, obstacles := obstacles }
    if s.obstacle_scan > 0 then
      let s := { s with obstacle_scan := s.obstacle_scan - 1 }
      if s.obstacle_scan = 0 then
        let obstacle_list := cfg.find_obstacles s.obstacles
        (s, [Event.find_obstacles, Event.response_obstacles obstacle_list])
      else (s, [])
    else (s, [])
  else (s, [])

/-- The image dump at the end of the loop body: every 30 frames, or on the key `i`, the
frame counter restarts and, with `do_depth`, the grid is written out and cleared. -/
def image_dump (cfg : Config R) (s : LoopState R) (k : Int) : LoopState R :=
  if s.framecount ≥ 30 ∨ k = 105 then
    let s := { s with framecount := 0 }
    let s := if cfg.do_depth then { s with obstacles := s.obstacles.clear } else s
    { s with writecount := s.writecount + 1 }
  else s

/-- The poll of the stepper in the loop body: the bytes that have come in are drained and
the last one gives the angle; the value returned by `serial_poll` is not used. -/
def poll_block (cfg : Config R) (s : LoopState R) (serial_in : List Nat) : LoopState R :=
  let polled := s.stepper.serial_poll cfg.pan_stepper
    { s.serial with rx := s.serial.rx ++ serial_in }
  { s with stepper := polled.2.1, serial := polled.2.2 }

/-- How one pass through the loop body ends: at its end with the loop going on, at the
`break` on the keys `Esc` and `q`, at `exit(1)` on a frame of the wrong size, or never
when the `H` request waits forever. -/
inductive CycleResult (R : Type) where
  | next (s : LoopState R) (events : List (Event R))
  | stop (s : LoopState R) (events : List (Event R))
  | size_mismatch (s : LoopState R) (events : List (Event R))
  | homing_never_confirmed

end Leaf

/-! ## The parts that need the trigonometric functions -/

section Loop

/-- The constructor `coord_rotator(angle_degs)`: the angle is converted to radians and its
cosine and sine are cached. -/
noncomputable def coord_rotator.ctor (angle_degs : ℝ) : coord_rotator ℝ :=
  let angle := angle_degs * Real.pi / 180
  ⟨angle, Real.cos angle, Real.sin angle⟩

/-- The constructor `camera_transform(camera_Z_angle)`. The constants `field_x_beacon` and
`field_y_beacon` of `firmware/field_geometry.h` are not among the sources and are taken as
arguments. -/
noncomputable def camera_transform.ctor (field_x_beacon field_y_beacon : ℝ)
    (camera_Z_angle : ℝ) : camera_transform ℝ :=
  ⟨⟨field_x_beacon, field_y_beacon, 70⟩, coord_rotator.ctor (-20),
    coord_rotator.ctor camera_Z_angle⟩

/-- The function `atan2` of the C library: the angle in radians, in `(-π, π]`, of the
point `(x,y)`; `atan2 0 0 = 0`. -/
noncomputable def atan2 (y x : ℝ) : ℝ := Complex.arg ⟨x, y⟩

/-- Modelled from the spec: the 2D vector `vec2` of the osl library, which is not among the
sources: two coordinates. -/
structure vec2 where
  x : ℝ
  y : ℝ

/-- The function `rotate` of `aurora/display.h`: the vector `src` turned around the origin
by `ang_deg` degrees. -/
noncomputable def rotate (src : vec2) (ang_deg : ℝ) : vec2 :=
  let ang_rad := ang_deg * Real.pi / 180
  let s := Real.sin ang_rad
  let c := Real.cos ang_rad
  ⟨c * src.x - s * src.y, s * src.x + c * src.y⟩

/-- The method `marker_watcher_print::found_marker`. The matrix `m` is read through
`m r c` for `m.at<float>(r,c)`; the catalog `get_marker_info` is not among the sources and
is an argument. The yaw, roll and pitch that the source computes are only printed inside
`if (false)` and are not represented. -/
noncomputable def marker_watcher_print.found_marker (get_marker_info : Int → marker_info_t ℝ)
    (camera_TF : camera_transform ℝ) (p : marker_watcher_print ℝ) (m : Nat → Nat → ℝ)
    (ID : Int) : marker_watcher_print ℝ :=
  let info := get_marker_info ID
  let scale := info.true_size
  if scale < 0 then p
  else
    let v : vec3 ℝ := ⟨m 0 3 * scale, m 1 3 * scale, m 2 3 * scale⟩
    let w := camera_TF.world_from_camera v
    if info.side < 0 then
      let w := w.sub camera_TF.camera
      let deg := atan2 w.y w.x * (180 / Real.pi)
      let ref := info.shift.z
      { p with angle_correction := deg - ref }
    else
      let axes (axis : Nat) : vec3 ℝ :=
        let a : vec3 ℝ := ⟨m 0 axis * scale, m 1 axis * scale, m 2 axis * scale⟩
        let a := a.scale 100
        (camera_TF.world_from_camera (v.add a)).sub w
      { p with markers :=
          p.markers.add info.id w (axes 0) (axes 1) info.shift info.weight info.side }

/-- The color block of the loop body: a fresh watcher is handed every detected marker, its
angle correction is applied to the stepper, and the marker set is published with the
beacon angle. -/
noncomputable def color_block (cfg : Config ℝ) (s : LoopState ℝ)
    (camera_TF : camera_transform ℝ) (detections : List ((Nat → Nat → ℝ) × Int)) :
    LoopState ℝ × List (Event ℝ) :=
  if cfg.do_color then
    let p := detections.foldl
      (fun p d => p.found_marker cfg.get_marker_info camera_TF d.1 d.2)
      marker_watcher_print.ctor
    let stepper :=
      if p.angle_correction ≠ 0 then
        { s.stepper with angle_correction := s.stepper.angle_correction - p.angle_correction }
      else s.stepper
    let markers := { p.markers with beacon := stepper.get_angle_deg }
    ({ s with stepper := stepper }, [Event.publish markers])
  else (s, [])

/-- The rest of the loop body once the frames have been accepted: the color block, the
depth block and the image dump, with the events of the two blocks. -/
noncomputable def frame_block (cfg : Config ℝ) (s : LoopState ℝ)
    (camera_TF : camera_transform ℝ) (inp : CycleInput ℝ) : LoopState ℝ × List (Event ℝ) :=
  let colored := color_block cfg s camera_TF inp.frames.detections
  let scanned := depth_block cfg colored.1 camera_TF inp.frames
  (image_dump cfg scanned.1 inp.key, colored.2 ++ scanned.2)

/-- One pass through the body of `while (true)` in `main`. -/
noncomputable def cycle (cfg : Config ℝ) (s : LoopState ℝ) (inp : CycleInput ℝ) :
    CycleResult ℝ :=
  match check_network cfg s inp.request inp.home_wait with
  | none => CycleResult.homing_never_confirmed
  | some (s, ev_net) =>
    let s := poll_block cfg s inp.serial_in
    let camera_TF := camera_transform.ctor cfg.field_x_beacon cfg.field_y_beacon
      s.stepper.get_angle_deg
    if cfg.depth_w ≠ inp.frames.depth_width ∨ cfg.depth_h ≠ inp.frames.depth_height
        ∨ cfg.color_w ≠ inp.frames.color_width ∨ cfg.color_h ≠ inp.frames.color_height then
      CycleResult.size_mismatch s ev_net
    else
      let s := { s with framecount := s.framecount + 1 }
      let r := frame_block cfg s camera_TF inp
      if inp.key = 27 ∨ inp.key = 113 then CycleResult.stop r.1 (ev_net ++ r.2)
      else CycleResult.next r.1 (ev_net ++ r.2)

/-- The loop run over a sequence of inputs: the state after the last cycle and the events
of every cycle, as long as each cycle reaches the next one. -/
noncomputable def run (cfg : Config ℝ) : LoopState ℝ → List (CycleInput ℝ) →
    Option (LoopState ℝ × List (List (Event ℝ)))
  | s, [] => some (s, [])
  | s, inp :: rest =>
    match cycle cfg s inp with
    | CycleResult.next s1 ev =>
      match run cfg s1 rest with
      | some (s2, evs) => some (s2, ev :: evs)
      | none => none
    | _ => none

end Loop

/-! ## The camera transform in the words of the specification -/

section SpecWords

/-- The tilt of the specification as a matrix: the rotation by `θ` radians about the x
axis, acting on the `(y,z)` pair. -/
noncomputable def Rx (θ : ℝ) : Matrix (Fin 3) (Fin 3) ℝ :=
  !![1, 0, 0; 0, Real.cos θ, -Real.sin θ; 0, Real.sin θ, Real.cos θ]

/-- The pan of the specification as a matrix: the rotation by `θ` radians about the z
axis, acting on the `(x,y)` pair. -/
noncomputable def Rz (θ : ℝ) : Matrix (Fin 3) (Fin 3) ℝ :=
  !![Real.cos θ, -Real.sin θ, 0; Real.sin θ, Real.cos θ, 0; 0, 0, 1]

/-- The coordinates of a `vec3` as a column. -/
def vec3.column (v : vec3 ℝ) : Fin 3 → ℝ := ![v.x, v.y, v.z]

end SpecWords

/-! ## Names for parts of the loop body, used to state its properties -/

section Parts

variable {R : Type} [LinearOrderedField R]

/-- The value of the local `depth` for the pixel `(x,y)`: the sample scaled to
centimeters. -/
def pixel_depth (cfg : Config R) (depth_data : Nat → Nat) (x y : Nat) : R :=
  ((depth_data (y * cfg.depth_w + x) % 65536 : Nat) : R) * cfg.depth2cm

/-- The value of the local `world` for the pixel `(x,y)`: the sample projected to camera
coordinates and carried to world coordinates. -/
def pixel_world (cfg : Config R) (camera_TF : camera_transform R)
    (depth_to_3D : realsense_projector R) (depth_data : Nat → Nat) (x y : Nat) : vec3 R :=
  camera_TF.world_from_camera (depth_to_3D.lookup (pixel_depth cfg depth_data x y) x y)

/-- Tells the responses sent with `command_server.response`, empty or not. -/
def Event.is_response : Event R → Bool
  | Event.response_empty => true
  | Event.response_obstacles _ => true
  | _ => false

/-- Tells the responses that carry an obstacle list. -/
def Event.is_response_obstacles : Event R → Bool
  | Event.response_obstacles _ => true
  | _ => false

/-- Tells the calls of `find_obstacles`. -/
def Event.is_find_obstacles : Event R → Bool
  | Event.find_obstacles => true
  | _ => false

/-- The cycle gets to its end and the loop goes on: the frames have the configured sizes
and the key is neither `Esc` nor `q`. -/
def loop_goes_on (cfg : Config R) (inp : CycleInput R) : Prop :=
  cfg.depth_w = inp.frames.depth_width ∧ cfg.depth_h = inp.frames.depth_height
    ∧ cfg.color_w = inp.frames.color_width ∧ cfg.color_h = inp.frames.color_height
    ∧ inp.key ≠ 27 ∧ inp.key ≠ 113

end Parts

/-- The value of the local `deg` of `found_marker`: the bearing in degrees at which the
marker with matrix `m` and catalog size `scale` is observed from the camera. -/
noncomputable def observed_bearing (camera_TF : camera_transform ℝ) (m : Nat → Nat → ℝ)
    (scale : ℝ) : ℝ :=
  let v : vec3 ℝ := ⟨m 0 3 * scale, m 1 3 * scale, m 2 3 * scale⟩
  let w := (camera_TF.world_from_camera v).sub camera_TF.camera
  atan2 w.y w.x * (180 / Real.pi)

/-- The state of the loop at the point where `do_scan` is computed, in a cycle that starts
from `s0` once the network block is over: the stepper has been polled, the frame has been
counted and the color block has run. -/
noncomputable def before_depth_block (cfg : Config ℝ) (s0 : LoopState ℝ) (inp : CycleInput ℝ) :
    LoopState ℝ :=
  (color_block cfg
    { poll_block cfg s0 inp.serial_in with
      framecount := (poll_block cfg s0 inp.serial_in).framecount + 1 }
    (camera_transform.ctor cfg.field_x_beacon cfg.field_y_beacon
      (poll_block cfg s0 inp.serial_in).stepper.get_angle_deg)
    inp.frames.detections).1

/-! ## Concrete inputs -/

section Examples

variable {R : Type} [LinearOrderedField R]

/-- Intrinsics of a 480 by 270 depth stream with the principal point at the pixel
`(240,135)` and all distortion coefficients zero. -/
def example_intrinsics : rs2_intrinsics R :=
  ⟨480, 270, 240, 135, 200, 200, rs2_distortion.inverse_brown_conrady, fun _ => 0⟩

/-- A catalog with one marker: ID 0 is a reference marker fixed to the field with
reference bearing 0 degrees; every other ID is unknown. -/
def example_catalog (ID : Int) : marker_info_t R :=
  if ID = 0 then ⟨0, 1, -1, 0, ⟨0, 0, 0⟩⟩ else ⟨ID, -1, 0, 0, ⟨0, 0, 0⟩⟩

/-- A stand-in for `find_obstacles`: every deposited point is reported. -/
def example_find_obstacles (g : obstacle_grid R) : List (aurora_detected_obstacle R) :=
  g.points.map (fun p => ⟨p.x, p.y, p.z⟩)

/-- The settings of a run with `--coarse`: stepper connected, color on, depth off, depth
frames of 480 by 270, color frames of 640 by 480, a depth unit of one millimeter, the
camera above the origin of the field. -/
def example_config : Config R :=
  ⟨true, false, true, 480, 270, 640, 480, 1 / 10, 0, 0, example_catalog,
    example_find_obstacles⟩

/-- The settings of a run with `--coarse --nostep`: as `example_config` without the serial
link, so that the stepper angle is tracked in software. -/
def software_config : Config R :=
  ⟨false, false, true, 480, 270, 640, 480, 1 / 10, 0, 0, example_catalog,
    example_find_obstacles⟩

/-- The loop when it starts with the stepper connected: the stepper stands at its zero of
-73 degrees, no correction is learned, `main` has written the byte 81 of its seek to 0
degrees, no scan is armed and the grid is empty. -/
def idle_state : LoopState R :=
  ⟨⟨-73, 0, 0⟩, ⟨[], [81]⟩, 0, -999, ⟨[]⟩, none, 0, 0⟩

/-- The loop one cycle after a scan at 0 degrees was requested from `idle_state` in front
of a blank depth frame: 17 frames remain, the seek byte 81 has been written again, and the
stepper has not reported any motion, so it still stands at -73 degrees. -/
def armed_far_state : LoopState R :=
  ⟨⟨-73, 0, 0⟩, ⟨[], [81, 81]⟩, 17, 0, ⟨[]⟩,
    some (realsense_projector.ctor example_intrinsics), 1, 0⟩

/-- The loop when it starts without the serial link: the seek to 0 degrees of `main` has
set the software angle to 0. -/
def software_idle_state : LoopState R :=
  ⟨⟨0, 0, 0⟩, ⟨[], []⟩, 0, -999, ⟨[]⟩, none, 0, 0⟩

/-- The loop without the serial link one cycle after a `P` request for 10 degrees from
`software_idle_state`: the software angle is 10 degrees and no correction is learned. -/
def facing_ten_state : LoopState R :=
  ⟨⟨10, 0, 0⟩, ⟨[], []⟩, 0, -999, ⟨[]⟩, none, 1, 0⟩

/-- Frames of the configured sizes whose depth samples all read 1000 (one meter), without
any marker in view. -/
def wall_frames : Frames R :=
  ⟨480, 270, 640, 480, fun _ => 1000, example_intrinsics, []⟩

/-- A cycle without request, serial input or key press, in front of `wall_frames`. -/
def quiet_input : CycleInput R :=
  ⟨none, [], [], wall_frames, -1⟩

/-- A cycle that receives the scan request `T` for 0 degrees. -/
def scan_request_input : CycleInput R :=
  ⟨some ⟨'T', 0⟩, [], [], wall_frames, -1⟩

/-- A cycle that receives the scan request `T` for 0 degrees in front of a blank depth
frame (every sample reads 0, no data). -/
def blank_scan_request_input : CycleInput R :=
  ⟨some ⟨'T', 0⟩, [], [], ⟨480, 270, 640, 480, fun _ => 0, example_intrinsics, []⟩, -1⟩

/-- A cycle that receives the point request `P` for 10 degrees, without any marker in
view. -/
def point_request_input : CycleInput R :=
  ⟨some ⟨'P', 10⟩, [], [], ⟨480, 270, 640, 480, fun _ => 0, example_intrinsics, []⟩, -1⟩

/-- The pose matrix of a marker one unit straight ahead of the camera: the translation
column is `(0,0,1)`, the rotation columns are the identity. -/
def marker_ahead (r c : Nat) : R :=
  if (r = 2 ∧ c = 3) ∨ (r = c ∧ c < 3) then 1 else 0

/-- A cycle without request in which the reference marker 0 is seen straight ahead. -/
def reference_marker_input : CycleInput R :=
  ⟨none, [], [], ⟨480, 270, 640, 480, fun _ => 0, example_intrinsics, [(marker_ahead, 0)]⟩, -1⟩

end Examples

/-- The camera transform of a cycle in which the stepper stands at -73 degrees, for the
camera position of `example_config`. -/
noncomputable def far_camera_TF : camera_transform ℝ := camera_transform.ctor 0 0 (-73)

/-- The camera transform of a cycle in which the stepper stands at 10 degrees, for the
camera position of `example_config`. -/
noncomputable def ten_camera_TF : camera_transform ℝ := camera_transform.ctor 0 0 10

/-- A catalog whose marker 0 has the size 0 and is mounted on the robot (`side` 1), and
whose marker 1 has the size 0 and is a reference marker with reference bearing 5
degrees; every other ID is unknown. -/
def zero_size_catalog {R : Type} [LinearOrderedField R] (ID : Int) : marker_info_t R :=
  if ID = 0 then ⟨0, 0, 1, 1, ⟨0, 0, 0⟩⟩
  else if ID = 1 then ⟨1, 0, -1, 0, ⟨0, 0, 5⟩⟩
  else ⟨ID, -1, 0, 0, ⟨0, 0, 0⟩⟩

/-! ## The display of poses (`aurora/display.h`) -/

section Display

variable {R : Type} [LinearOrderedField R]

/-- Modelled from the spec: the `robot_pose` of `aurora/pose.h`, which is not among the
sources: a position, the forward and the right direction, and a confidence. -/
structure robot_pose (R : Type) where
  pos : vec3 R
  fwd : vec3 R
  rgt : vec3 R
  confidence : R

/-- Modelled from the spec: the members of `robot_markers_all` (`aurora/pose.h`, not among
the sources) that `robot_display_markers` reads: the fused pose of the robot, the
`NMARKER` slots of the markers in the order of their index, and the beacon angle. -/
structure robot_markers_shown (R : Type) where
  pose : robot_pose R
  markers : List (robot_pose R)
  beacon : R

/-- What the display functions put out: the OpenGL calls and the lines printed. A vertex
given as a `vec3` is drawn at its `x` and `y`. -/
inductive Shown (R : Type) where
  | glBegin_triangle_fan
  | glBegin_lines
  | glEnd
  | glColor3f (r g b : R)
  | glColor4fv (r g b a : R)
  | glVertex2fv (x y : R)
  | printf_robot_pose
  | printf_marker (i : Nat)
  | pose_print (pose : robot_pose R)

/-- The function `robot_display_pose` of `display.h`. -/
def robot_display_pose (pose : robot_pose R) : List (Shown R) :=
  if pose.confidence < 1 / 10 then []
  else
    let start := pose.pos
    [Shown.glBegin_triangle_fan,
     Shown.glColor3f (1 / 2) (1 / 2) (1 / 2),
     Shown.glVertex2fv start.x start.y,
     Shown.glColor3f 1 0 0,
     Shown.glVertex2fv (start.add (pose.rgt.scale 20)).x (start.add (pose.rgt.scale 20)).y,
     Shown.glColor3f 0 1 0,
     Shown.glVertex2fv (start.add (pose.fwd.scale 20)).x (start.add (pose.fwd.scale 20)).y,
     Shown.glEnd]

/-- The body of the loop of `robot_display_markers` over the marker slots, for the slot
`i`. -/
def display_marker_slot (i : Nat) (pose : robot_pose R) : List (Shown R) :=
  if pose.confidence < 1 / 10 then []
  else [Shown.printf_marker i, Shown.pose_print pose] ++ robot_display_pose pose

/-- The loop of `robot_display_markers` over the marker slots, from the slot `i` on. -/
def display_marker_slots : Nat → List (robot_pose R) → List (Shown R)
  | _, [] => []
  | i, pose :: later => display_marker_slot i pose ++ display_marker_slots (i + 1) later

end Display

/-- One line of the beacon field of view drawn by `robot_display_markers`, for the offset
`angle` in degrees. -/
noncomputable def display_beacon_line (field_x_beacon field_y_beacon beacon : ℝ)
    (angle : Int) : List (Shown ℝ) :=
  let ang := ((angle : ℝ) + beacon) * (Real.pi / 180)
  let c := Real.cos ang
  let s := Real.sin ang
  [Shown.glColor4fv (2 / 10) (2 / 10) (2 / 10) 1,
   Shown.glVertex2fv field_x_beacon field_y_beacon,
   Shown.glVertex2fv (field_x_beacon + 200 * c) (field_y_beacon + 200 * s)]

/-- The function `robot_display_markers` of `display.h`: the fused pose is drawn and
printed, then every marker slot, then the beacon field of view at -30, 0 and 30
degrees. -/
noncomputable def robot_display_markers (field_x_beacon field_y_beacon : ℝ)
    (m : robot_markers_shown ℝ) : List (Shown ℝ) :=
  robot_display_pose m.pose
    ++ [Shown.printf_robot_pose, Shown.pose_print m.pose]
    ++ display_marker_slots 0 m.markers
    ++ [Shown.glBegin_lines]
    ++ display_beacon_line field_x_beacon field_y_beacon m.beacon (-30)
    ++ display_beacon_line field_x_beacon field_y_beacon m.beacon 0
    ++ display_beacon_line field_x_beacon field_y_beacon m.beacon 30
    ++ [Shown.glEnd]

/-! ## The names of the states (`aurora/robot.cpp`) -/

/-- The initializers of the table of `state_to_string`, in order. -/
def state_names : List String :=
  ["STOP", "drive", "backend_driver",
   "autonomy", "setup_raise", "setup_extend", "setup_lower", "find_camera", "scan_obstacles",
   "drive_to_mine",
   "mine_lower", "mine_stall", "mine", "mine_raise",
   "drive_to_dump", "dump_align",
   "dump_contact", "dump_raise", "dump_pull", "dump_rattle", "dump_push",
   "stow", "stow_clean", "stowed",
   "last"]

/-- The static array `table[state_last+1]` of `state_to_string`: the initializers, followed
by null pointers (`none`) up to the declared length. The enumeration constant
`state_last` belongs to a header that is not among the sources and is an argument; the
source compiles only when the 25 initializers fit, that is for `24 ≤ state_last`. -/
def state_table (state_last : Nat) : List (Option String) :=
  state_names.map some ++ List.replicate (state_last + 1 - state_names.length) none

/-- The function `state_to_string` of `robot.cpp`; the result `none` is the null
pointer. -/
def state_to_string (state_last : Nat) (state : Int) : Option String :=
  if state < 0 ∨ state ≥ state_last then some "unknown_invalid"
  else (state_table state_last).getD state.toNat none

/-! ## Lengths, and the camera transform of a cycle -/

/-- The Euclidean length of a vector. -/
noncomputable def vec3.length (v : vec3 ℝ) : ℝ :=
  Real.sqrt (v.x ^ 2 + v.y ^ 2 + v.z ^ 2)

/-- The camera transform that the loop builds for a cycle from the state `s`:
`camera_transform camera_TF(stepper.get_angle_deg())`. -/
noncomputable def cycle_camera_TF (cfg : Config ℝ) (s : LoopState ℝ) : camera_transform ℝ :=
  camera_transform.ctor cfg.field_x_beacon cfg.field_y_beacon s.stepper.get_angle_deg

/-- The state of the loop after the color block of a cycle whose one sighting is the marker
`ID` with the matrix `m`. -/
noncomputable def after_sighting (cfg : Config ℝ) (s : LoopState ℝ) (m : Nat → Nat → ℝ)
    (ID : Int) : LoopState ℝ :=
  (color_block cfg s (cycle_camera_TF cfg s) [(m, ID)]).1

/-- A pose at the origin of the field, facing along `x`, with the confidence `c`. -/
def pose_with_confidence {R : Type} [LinearOrderedField R] (c : R) : robot_pose R :=
  ⟨⟨0, 0, 0⟩, ⟨1, 0, 0⟩, ⟨0, 1, 0⟩, c⟩

/-- A marker set whose fused pose has the confidence 0 and whose slots 0, 1 and 2 have the
confidences 0.05, 0.1 and 1. -/
def threshold_markers {R : Type} [LinearOrderedField R] : robot_markers_shown R :=
  ⟨pose_with_confidence 0,
    [pose_with_confidence (5 / 100), pose_with_confidence (1 / 10), pose_with_confidence 1],
    0⟩

/-- A cycle that receives the homing request `h` for 0 degrees; the stepper confirms with
the byte 0 before the second poll of the wait. -/
def home_request_input {R : Type} [LinearOrderedField R] : CycleInput R :=
  ⟨some ⟨'h', 0⟩, [[], [0]], [], wall_frames, -1⟩

/-! ## Properties of the stepper controller and of the command dispatch -/

section LeafProofs

variable {R : Type} [LinearOrderedField R] [FloorRing R]

/-- The byte that `seek_steps` hands to the link, as a number. -/
lemma seek_steps_tx (port : SerialPort) (step : Int) :
    (seek_steps port step).tx = port.tx ++ [(max 0 (min 250 step)).toNat]
      ∧ (seek_steps port step).rx = port.rx := by
  unfold seek_steps SerialPort.write
  simp only [and_true]
  congr 2
  split_ifs with h1 h2 h3 <;> omega

/-- Truncation toward zero stays less than one unit away from the number and is not
larger in absolute value: the two facts fix the integer. -/
lemma trunc_spec (x : R) : |x - (trunc x : R)| < 1 ∧ |(trunc x : R)| ≤ |x| := by
  unfold trunc
  split_ifs with h
  · have h1 := Int.floor_le x
    have h2 := Int.lt_floor_add_one x
    have h3 : (0 : R) ≤ (Int.floor x : R) := by exact_mod_cast Int.floor_nonneg.mpr h
    rw [abs_of_nonneg (by linarith), abs_of_nonneg h3, abs_of_nonneg h]
    constructor <;> linarith
  · push_neg at h
    have h1 := Int.le_ceil x
    have h2 := Int.ceil_lt_add_one x
    have h3 : ((Int.ceil x : Int) : R) ≤ 0 := by
      exact_mod_cast Int.ceil_le.mpr (by simpa using h.le)
    rw [abs_of_nonpos (by linarith), abs_of_nonpos h3, abs_of_neg h]
    constructor <;> linarith

/-- The truncation of a number that lies between an integer, not negative, and its
successor. -/
lemma trunc_eq_of_le_of_lt (x : R) (n : Int) (h0 : 0 ≤ n) (h1 : (n : R) ≤ x)
    (h2 : x < n + 1) : trunc x = n := by
  have hx : (0 : R) ≤ x := le_trans (by exact_mod_cast h0) h1
  rw [trunc, if_pos hx, Int.floor_eq_iff]
  exact ⟨h1, h2⟩

/-- The conversion to `int` is the truncation toward zero for every value whose
truncation fits the 32 bits, that is for the values strictly between `INT_MIN - 1` and
`INT_MAX + 1`. -/
lemma float_to_int_of_fits (x : R) (hlo : -2147483649 < x) (hhi : x < 2147483648) :
    float_to_int x = trunc x := by
  unfold float_to_int
  apply if_pos
  unfold trunc INT_MIN INT_MAX
  split_ifs with h
  · constructor
    · have := Int.floor_nonneg.mpr h
      omega
    · have : Int.floor x < 2147483648 := Int.floor_lt.mpr (by exact_mod_cast hhi)
      omega
  · push_neg at h
    constructor
    · have : (-2147483649 : Int) < Int.ceil x := Int.lt_ceil.mpr (by exact_mod_cast hlo)
      omega
    · have : Int.ceil x ≤ 0 := Int.ceil_le.mpr (by simpa using h.le)
      omega

/-- The conversion to `int` always delivers a value of the 32-bit `int`. -/
lemma float_to_int_range (x : R) :
    INT_MIN ≤ float_to_int x ∧ float_to_int x ≤ INT_MAX := by
  unfold float_to_int
  split_ifs with h
  · exact h
  · unfold INT_MIN INT_MAX
    omega

/-- Claim C9, amended: with the stepper connected, `absolute_seek` writes exactly one
byte; the byte is at most 250 and so never the homing sentinel `0xFF` of `setup_seek`,
and the pending input and the controller are left as they were. For every angle and
correction whose step count `(degrees - angle_correction + 73) * 400/360` truncates into
the range of `int` the byte is that truncation (the integer less than one unit away from
the step count on the side of zero) clamped into `[0,250]`. -/
theorem absolute_seek_writes_clamped_byte (st : stepper_controller R) (port : SerialPort)
    (degrees : R) :
    (∃ b : Nat, (st.absolute_seek true port degrees).2.tx = port.tx ++ [b]
        ∧ b ≤ 250 ∧ b ≠ 255
        ∧ (-2147483649 < (degrees - st.angle_correction + 73) * (400 / 360) →
            (degrees - st.angle_correction + 73) * (400 / 360) < 2147483648 →
            (b : Int)
              = max 0 (min 250 (trunc ((degrees - st.angle_correction + 73) * (400 / 360))))))
      ∧ |(degrees - st.angle_correction + 73) * (400 / 360)
          - (trunc ((degrees - st.angle_correction + 73) * (400 / 360)) : R)| < 1
      ∧ |(trunc ((degrees - st.angle_correction + 73) * (400 / 360)) : R)|
          ≤ |(degrees - st.angle_correction + 73) * (400 / 360)|
      ∧ (st.absolute_seek true port degrees).2.rx = port.rx
      ∧ (st.absolute_seek true port degrees).1 = st
      ∧ (st.setup_seek true port).2.tx = port.tx ++ [255] := by
  have hsub : degrees - st.angle_correction - stepper_angle_zero
      = degrees - st.angle_correction + 73 := by
    unfold stepper_angle_zero; ring
  have hseek : st.absolute_seek true port degrees
      = (st, seek_steps port
          (float_to_int ((degrees - st.angle_correction + 73) * (400 / 360)))) := by
    simp only [stepper_controller.absolute_seek, if_true, hsub, stepper_angle_to_step]
  have htx := seek_steps_tx port
    (float_to_int ((degrees - st.angle_correction + 73) * (400 / 360)))
  have hspec := trunc_spec ((degrees - st.angle_correction + 73) * (400 / 360))
  refine ⟨⟨_, by rw [hseek]; exact htx.1, by omega, by omega, ?_⟩, hspec.1, hspec.2,
    by rw [hseek]; exact htx.2, by rw [hseek], ?_⟩
  · intro hlo hhi
    rw [float_to_int_of_fits _ hlo hhi]
    omega
  · simp [stepper_controller.setup_seek, SerialPort.write]

/-- Claim C10: without the serial link (`pan_stepper` false) `absolute_seek` returns, leaves
the link untouched and only stores `degrees - angle_correction` as the software angle,
so that `get_angle_deg` read right afterwards is exactly the requested angle. -/
theorem absolute_seek_software_fallback (st : stepper_controller R) (port : SerialPort)
    (degrees : R) :
    st.absolute_seek false port degrees
        = ({ st with camera_Z_angle := degrees - st.angle_correction }, port)
      ∧ (st.absolute_seek false port degrees).2 = port
      ∧ (st.absolute_seek false port degrees).1.angle_correction = st.angle_correction
      ∧ (st.absolute_seek false port degrees).1.camera_Z_angle = degrees - st.angle_correction
      ∧ (st.absolute_seek false port degrees).1.get_angle_deg = degrees := by
  simp [stepper_controller.absolute_seek, stepper_controller.get_angle_deg]

/-- Claim C5: a request whose letter, once uppercased, is none of `P`, `O`, `H`, `T` is
answered with exactly one empty response and leaves the whole state of the loop as it
was: the stepper (angle and correction), the grid, `obstacle_scan`,
`obstacle_scan_target` and the serial link, to which nothing is written. -/
theorem unknown_command_only_acknowledged (cfg : Config R) (s : LoopState R)
    (cmd : aurora_beacon_command R) (home_wait : List (List Nat))
    (hP : cmd.letter.toUpper ≠ 'P') (hO : cmd.letter.toUpper ≠ 'O')
    (hH : cmd.letter.toUpper ≠ 'H') (hT : cmd.letter.toUpper ≠ 'T') :
    handle_request cfg s cmd home_wait = some (s, [Event.response_empty]) := by
  simp [handle_request, hP, hO, hH, hT]

end LeafProofs

section TableProofs

variable {R : Type} [LinearOrderedField R]

/-- The tables after the first `n` columns of row `h` have been written. -/
lemma fill_row_prefix (intrinsics : rs2_intrinsics R) (h : Nat) (tab : (Nat → R) × (Nat → R))
    (n j : Nat) :
    (((List.range n).foldl
        (fun t w =>
          let d := pixel_direction intrinsics w h
          (Function.update t.1 (h * intrinsics.width + w) d.1,
           Function.update t.2 (h * intrinsics.width + w) d.2))
        tab).1 j
      = if h * intrinsics.width ≤ j ∧ j < h * intrinsics.width + n
        then (pixel_direction intrinsics (j - h * intrinsics.width) h).1 else tab.1 j)
    ∧ (((List.range n).foldl
        (fun t w =>
          let d := pixel_direction intrinsics w h
          (Function.update t.1 (h * intrinsics.width + w) d.1,
           Function.update t.2 (h * intrinsics.width + w) d.2))
        tab).2 j
      = if h * intrinsics.width ≤ j ∧ j < h * intrinsics.width + n
        then (pixel_direction intrinsics (j - h * intrinsics.width) h).2 else tab.2 j) := by
  induction n with
  | zero =>
    have h0 : ¬ (h * intrinsics.width ≤ j ∧ j < h * intrinsics.width) := by omega
    simp [h0]
  | succ n ih =>
    simp only [List.range_succ, List.foldl_append, List.foldl_cons, List.foldl_nil,
      Function.update_apply]
    rw [ih.1, ih.2]
    by_cases hj : j = h * intrinsics.width + n
    · subst hj
      simp
    · have h1 : (h * intrinsics.width ≤ j ∧ j < h * intrinsics.width + (n + 1))
          ↔ (h * intrinsics.width ≤ j ∧ j < h * intrinsics.width + n) := by omega
      simp only [hj, if_false, h1]
      exact ⟨trivial, trivial⟩

/-- The tables after row `h` has been written. -/
lemma fill_row_apply (intrinsics : rs2_intrinsics R) (h : Nat) (tab : (Nat → R) × (Nat → R))
    (j : Nat) :
    ((fill_row intrinsics h tab).1 j
      = if h * intrinsics.width ≤ j ∧ j < h * intrinsics.width + intrinsics.width
        then (pixel_direction intrinsics (j - h * intrinsics.width) h).1 else tab.1 j)
    ∧ ((fill_row intrinsics h tab).2 j
      = if h * intrinsics.width ≤ j ∧ j < h * intrinsics.width + intrinsics.width
        then (pixel_direction intrinsics (j - h * intrinsics.width) h).2 else tab.2 j) :=
  fill_row_prefix intrinsics h tab intrinsics.width j

/-- After the first `n` rows have been written, every pixel of these rows holds its
direction. -/
lemma fill_rows_apply (intrinsics : rs2_intrinsics R) (n h w : Nat) (hh : h < n)
    (hw : w < intrinsics.width) :
    (((List.range n).foldl (fun t h => fill_row intrinsics h t)
        ((fun _ => 0, fun _ => 0) : (Nat → R) × (Nat → R))).1 (h * intrinsics.width + w)
      = (pixel_direction intrinsics w h).1)
    ∧ (((List.range n).foldl (fun t h => fill_row intrinsics h t)
        ((fun _ => 0, fun _ => 0) : (Nat → R) × (Nat → R))).2 (h * intrinsics.width + w)
      = (pixel_direction intrinsics w h).2) := by
  induction n with
  | zero => omega
  | succ n ih =>
    simp only [List.range_succ, List.foldl_append, List.foldl_cons, List.foldl_nil]
    rw [(fill_row_apply intrinsics n _ _).1, (fill_row_apply intrinsics n _ _).2]
    by_cases hn : h = n
    · subst hn
      simp [hw]
    · have hlt : h < n := by omega
      have hle : (h + 1) * intrinsics.width ≤ n * intrinsics.width :=
        Nat.mul_le_mul_right _ (by omega)
      have hidx : ¬ (n * intrinsics.width ≤ h * intrinsics.width + w
          ∧ h * intrinsics.width + w < n * intrinsics.width + intrinsics.width) := by
        rw [Nat.add_mul, Nat.one_mul] at hle
        omega
      simp only [hidx, if_false]
      exact ih hlt

/-- The direction cached for a pixel inside the image is the one computed for it. -/
lemma ctor_dir (intrinsics : rs2_intrinsics R) (w h : Nat) (hw : w < intrinsics.width)
    (hh : h < intrinsics.height) :
    (realsense_projector.ctor intrinsics).xdir (h * intrinsics.width + w)
        = (pixel_direction intrinsics w h).1
    ∧ (realsense_projector.ctor intrinsics).ydir (h * intrinsics.width + w)
        = (pixel_direction intrinsics w h).2 :=
  fill_rows_apply intrinsics intrinsics.height h w hh hw

/-- Without distortion the direction is the raw normalized pixel. -/
lemma pixel_direction_raw (intrinsics : rs2_intrinsics R) (w h : Nat)
    (hzero : (∀ i, intrinsics.coeffs i = 0)
      ∨ intrinsics.model ≠ rs2_distortion.inverse_brown_conrady) :
    pixel_direction intrinsics w h
      = (((w : R) - intrinsics.ppx) / intrinsics.fx, ((h : R) - intrinsics.ppy) / intrinsics.fy) := by
  unfold pixel_direction
  rcases hzero with hz | hm
  · split_ifs <;> simp [hz]
  · simp [hm]

/-- Claim C8: when the five distortion coefficients are zero, or the distortion model is not
the inverse Brown-Conrady one, the direction cached for every pixel `(w,h)` of the image is
the raw normalized pixel `((w-ppx)/fx, (h-ppy)/fy)`; at the principal pixel it is `(0,0)`;
`lookup` returns the cached direction scaled by the depth with `z` equal to the depth, so
that the projected point is linear in the depth. -/
theorem undistortion_identity (intrinsics : rs2_intrinsics R)
    (hzero : (∀ i, intrinsics.coeffs i = 0)
      ∨ intrinsics.model ≠ rs2_distortion.inverse_brown_conrady)
    (w h : Nat) (hw : w < intrinsics.width) (hh : h < intrinsics.height) :
    (realsense_projector.ctor intrinsics).xdir (h * intrinsics.width + w)
        = ((w : R) - intrinsics.ppx) / intrinsics.fx
    ∧ (realsense_projector.ctor intrinsics).ydir (h * intrinsics.width + w)
        = ((h : R) - intrinsics.ppy) / intrinsics.fy
    ∧ (intrinsics.ppx = w → intrinsics.ppy = h → intrinsics.fx ≠ 0 → intrinsics.fy ≠ 0 →
        (realsense_projector.ctor intrinsics).xdir (h * intrinsics.width + w) = 0
        ∧ (realsense_projector.ctor intrinsics).ydir (h * intrinsics.width + w) = 0)
    ∧ (∀ depth : R, (realsense_projector.ctor intrinsics).lookup depth w h
        = ⟨((w : R) - intrinsics.ppx) / intrinsics.fx * depth,
           ((h : R) - intrinsics.ppy) / intrinsics.fy * depth, depth⟩)
    ∧ (∀ k depth : R, (realsense_projector.ctor intrinsics).lookup (depth * k) w h
        = ((realsense_projector.ctor intrinsics).lookup depth w h).scale k) := by
  have hx := (ctor_dir intrinsics w h hw hh).1
  have hy := (ctor_dir intrinsics w h hw hh).2
  rw [pixel_direction_raw intrinsics w h hzero] at hx hy
  have hi : (realsense_projector.ctor intrinsics).intrinsics = intrinsics := rfl
  refine ⟨hx, hy, ?_, ?_, ?_⟩
  · intro hpx hpy _ _
    rw [hx, hy, hpx, hpy]
    simp
  · intro depth
    simp only [realsense_projector.lookup, hi, hx, hy]
  · intro k depth
    simp only [realsense_projector.lookup, hi, hx, hy, vec3.scale, vec3.mk.injEq]
    refine ⟨?_, ?_, trivial⟩ <;> ring

end TableProofs
section RealProofs

/-- Claim C6: rotating by `a` degrees and then by `b` degrees is rotating by `a + b`
degrees, exactly, for every vector, and rotating by `0` degrees changes nothing; this
holds for `coord_rotator::rotate` and for the `rotate` of `display.h`, which computes the
same vector. -/
theorem rotate_composition (a b x y : ℝ) :
    (coord_rotator.ctor b).rotate ((coord_rotator.ctor a).rotate x y).1
        ((coord_rotator.ctor a).rotate x y).2
      = (coord_rotator.ctor (a + b)).rotate x y
    ∧ (coord_rotator.ctor 0).rotate x y = (x, y)
    ∧ rotate (rotate ⟨x, y⟩ a) b = rotate ⟨x, y⟩ (a + b)
    ∧ rotate ⟨x, y⟩ 0 = ⟨x, y⟩
    ∧ ((rotate ⟨x, y⟩ a).x, (rotate ⟨x, y⟩ a).y) = (coord_rotator.ctor a).rotate x y := by
  have h : (a + b) * Real.pi / 180 = a * Real.pi / 180 + b * Real.pi / 180 := by ring
  refine ⟨?_, ?_, ?_, ?_, ?_⟩
  · simp only [coord_rotator.ctor, coord_rotator.rotate, h, Real.cos_add, Real.sin_add,
      Prod.mk.injEq]
    constructor <;> ring
  · simp [coord_rotator.ctor, coord_rotator.rotate]
  · simp only [rotate, h, Real.cos_add, Real.sin_add, vec2.mk.injEq]
    constructor <;> ring
  · simp [rotate]
  · simp only [rotate, coord_rotator.ctor, coord_rotator.rotate, Prod.mk.injEq]
    constructor <;> ring

/-- Claim C7: `world_from_camera` is the axis remap `(pz, -px, -py)`, then the tilt `Rx` by
-20 degrees, then the pan `Rz` by the pan angle, then the translation by the camera
origin; the camera-frame origin goes to the camera origin `(field_x_beacon,
field_y_beacon, 70)` whatever the pan angle, and the `z` of the result does not depend on
the pan angle. -/
theorem world_from_camera_composition (field_x_beacon field_y_beacon t : ℝ) (p : vec3 ℝ) :
    ((camera_transform.ctor field_x_beacon field_y_beacon t).world_from_camera p).column
        = ![field_x_beacon, field_y_beacon, 70]
          + (Rz (t * Real.pi / 180)).mulVec
              ((Rx (-20 * Real.pi / 180)).mulVec ![p.z, -p.x, -p.y])
    ∧ (camera_transform.ctor field_x_beacon field_y_beacon t).world_from_camera ⟨0, 0, 0⟩
        = (camera_transform.ctor field_x_beacon field_y_beacon t).camera
    ∧ (camera_transform.ctor field_x_beacon field_y_beacon t).camera
        = ⟨field_x_beacon, field_y_beacon, 70⟩
    ∧ ∀ t2 : ℝ,
        ((camera_transform.ctor field_x_beacon field_y_beacon t2).world_from_camera p).z
          = ((camera_transform.ctor field_x_beacon field_y_beacon t).world_from_camera p).z := by
  refine ⟨?_, ?_, ?_, ?_⟩
  · funext i
    fin_cases i <;>
      simp [vec3.column, camera_transform.ctor, camera_transform.world_from_camera,
        coord_rotator.ctor, coord_rotator.rotate, Rx, Rz, Matrix.mulVec, Matrix.dotProduct,
        Fin.sum_univ_three, Matrix.vecHead, Matrix.vecTail] <;> ring
  · simp [camera_transform.ctor, camera_transform.world_from_camera, coord_rotator.rotate]
  · rfl
  · intro t2
    simp [camera_transform.ctor, camera_transform.world_from_camera, coord_rotator.rotate]

end RealProofs

/-! ## The depth accumulation loop -/

/-- The points of a grid after a fold whose step deposits `w x` when `Q x` holds and does
nothing otherwise. -/
lemma foldl_deposit_mem {R : Type} {α : Type} (step : obstacle_grid R → α → obstacle_grid R)
    (Q : α → Prop) (w : α → vec3 R)
    (hstep : ∀ g x, (Q x → step g x = g.add (w x)) ∧ (¬ Q x → step g x = g))
    (p : vec3 R) (l : List α) (g : obstacle_grid R) :
    p ∈ (l.foldl step g).points ↔ p ∈ g.points ∨ ∃ x ∈ l, Q x ∧ p = w x := by
  induction l generalizing g with
  | nil => simp
  | cons x l ih =>
    rw [List.foldl_cons, ih]
    by_cases hq : Q x
    · rw [(hstep g x).1 hq]
      constructor
      · rintro (h | ⟨x2, hx2, h⟩)
        · rcases List.mem_cons.mp h with h | h
          · exact Or.inr ⟨x, List.mem_cons_self _ _, hq, h⟩
          · exact Or.inl h
        · exact Or.inr ⟨x2, List.mem_cons_of_mem _ hx2, h⟩
      · rintro (h | ⟨x2, hx2, h⟩)
        · exact Or.inl (List.mem_cons_of_mem _ h)
        · rcases List.mem_cons.mp hx2 with h2 | h2
          · subst h2
            exact Or.inl (by rw [h.2]; exact List.mem_cons_self _ _)
          · exact Or.inr ⟨x2, h2, h⟩
    · rw [(hstep g x).2 hq]
      constructor
      · rintro (h | ⟨x2, hx2, h⟩)
        · exact Or.inl h
        · exact Or.inr ⟨x2, List.mem_cons_of_mem _ hx2, h⟩
      · rintro (h | ⟨x2, hx2, h⟩)
        · exact Or.inl h
        · rcases List.mem_cons.mp hx2 with h2 | h2
          · subst h2
            exact absurd h.1 hq
          · exact Or.inr ⟨x2, h2, h⟩

section AccumulateProofs

variable {R : Type} [LinearOrderedField R]

/-- The body of the accumulation loops in terms of the depth and the world point of the
pixel. -/
lemma accumulate_pixel_eq (cfg : Config R) (camera_TF : camera_transform R)
    (depth_to_3D : realsense_projector R) (depth_data : Nat → Nat) (y : Nat)
    (g : obstacle_grid R) (x : Nat) :
    accumulate_pixel cfg camera_TF depth_to_3D depth_data y g x
      = if 0 < pixel_depth cfg depth_data x y then
          if (pixel_world cfg camera_TF depth_to_3D depth_data x y).z < 150
              ∧ (pixel_world cfg camera_TF depth_to_3D depth_data x y).z > -50
          then g.add (pixel_world cfg camera_TF depth_to_3D depth_data x y) else g
        else g := rfl

/-- The points of the grid after a run of the inner loop over the columns `l`. -/
lemma accumulate_row_mem (cfg : Config R) (camera_TF : camera_transform R)
    (depth_to_3D : realsense_projector R) (depth_data : Nat → Nat) (y : Nat) (p : vec3 R)
    (l : List Nat) (g : obstacle_grid R) :
    p ∈ (l.foldl (accumulate_pixel cfg camera_TF depth_to_3D depth_data y) g).points
      ↔ p ∈ g.points ∨ ∃ x ∈ l, (0 < pixel_depth cfg depth_data x y
          ∧ ((pixel_world cfg camera_TF depth_to_3D depth_data x y).z < 150
              ∧ (pixel_world cfg camera_TF depth_to_3D depth_data x y).z > -50))
          ∧ p = pixel_world cfg camera_TF depth_to_3D depth_data x y := by
  apply foldl_deposit_mem (accumulate_pixel cfg camera_TF depth_to_3D depth_data y)
    (fun x => 0 < pixel_depth cfg depth_data x y
          ∧ ((pixel_world cfg camera_TF depth_to_3D depth_data x y).z < 150
              ∧ (pixel_world cfg camera_TF depth_to_3D depth_data x y).z > -50))
    (fun x => pixel_world cfg camera_TF depth_to_3D depth_data x y)
  intro g x
  rw [accumulate_pixel_eq]
  constructor
  · rintro ⟨h1, h2⟩
    simp only [h1, h2, if_true, and_self]
  · intro h
    by_cases hd : 0 < pixel_depth cfg depth_data x y
    · have hb : ¬ ((pixel_world cfg camera_TF depth_to_3D depth_data x y).z < 150
          ∧ (pixel_world cfg camera_TF depth_to_3D depth_data x y).z > -50) :=
        fun hb => h ⟨hd, hb⟩
      simp only [hd, hb, if_true, if_false]
    · simp only [hd, if_false]

/-- The points of the grid after a run of the outer loop over the rows `rows`. -/
lemma accumulate_rows_mem (cfg : Config R) (camera_TF : camera_transform R)
    (depth_to_3D : realsense_projector R) (depth_data : Nat → Nat) (p : vec3 R)
    (rows : List Nat) (g : obstacle_grid R) :
    p ∈ (rows.foldl
          (fun g y =>
            (List.range' realsense_left_start (cfg.depth_w - realsense_left_start)).foldl
              (accumulate_pixel cfg camera_TF depth_to_3D depth_data y) g) g).points
      ↔ p ∈ g.points ∨ ∃ y ∈ rows, ∃ x, realsense_left_start ≤ x ∧ x < cfg.depth_w
          ∧ 0 < pixel_depth cfg depth_data x y
          ∧ ((pixel_world cfg camera_TF depth_to_3D depth_data x y).z < 150
              ∧ (pixel_world cfg camera_TF depth_to_3D depth_data x y).z > -50)
          ∧ p = pixel_world cfg camera_TF depth_to_3D depth_data x y := by
  induction rows generalizing g with
  | nil => simp
  | cons y rows ih =>
    rw [List.foldl_cons, ih, accumulate_row_mem]
    simp only [List.mem_range'_1, List.exists_mem_cons_iff]
    constructor
    · rintro ((h | ⟨x, ⟨h1, h2⟩, ⟨h3, h4⟩, h5⟩) | h)
      · exact Or.inl h
      · exact Or.inr (Or.inl ⟨x, h1, by omega, h3, h4, h5⟩)
      · exact Or.inr (Or.inr h)
    · rintro (h | ⟨x, h1, h2, h3, h4, h5⟩ | h)
      · exact Or.inl (Or.inl h)
      · exact Or.inl (Or.inr ⟨x, ⟨h1, by omega⟩, ⟨h3, h4⟩, h5⟩)
      · exact Or.inr h

/-- The points of the grid after the accumulation loops: those it held, and the world
point of every pixel of the scanned columns with a positive depth and a height inside the
band. -/
lemma accumulate_depth_mem (cfg : Config R) (camera_TF : camera_transform R)
    (depth_to_3D : realsense_projector R) (depth_data : Nat → Nat) (g : obstacle_grid R)
    (p : vec3 R) :
    p ∈ (accumulate_depth cfg camera_TF depth_to_3D depth_data g).points
      ↔ p ∈ g.points ∨ ∃ y, y < cfg.depth_h ∧ ∃ x, realsense_left_start ≤ x ∧ x < cfg.depth_w
          ∧ 0 < pixel_depth cfg depth_data x y
          ∧ ((pixel_world cfg camera_TF depth_to_3D depth_data x y).z < 150
              ∧ (pixel_world cfg camera_TF depth_to_3D depth_data x y).z > -50)
          ∧ p = pixel_world cfg camera_TF depth_to_3D depth_data x y := by
  unfold accumulate_depth
  rw [accumulate_rows_mem]
  simp only [List.mem_range]

/-- Claim C4: for a depth sample with positive depth in a scanned column (`x ≥ 50`, inside
the image), the body of the loop deposits its world point when `-50 < z < 150` and
leaves the grid as it was when `z ≤ -50` or `z ≥ 150`, the two bounds included; after
the loops the world point is among the points of the grid exactly when its `z` is inside
the band, or the point was in the grid before. -/
theorem z_band_filter (cfg : Config R) (camera_TF : camera_transform R)
    (depth_to_3D : realsense_projector R) (depth_data : Nat → Nat) (g : obstacle_grid R)
    (x y : Nat) (hx : 50 ≤ x) (hxw : x < cfg.depth_w) (hy : y < cfg.depth_h)
    (hdepth : 0 < pixel_depth cfg depth_data x y) :
    ((-50 < (pixel_world cfg camera_TF depth_to_3D depth_data x y).z
        ∧ (pixel_world cfg camera_TF depth_to_3D depth_data x y).z < 150) →
      accumulate_pixel cfg camera_TF depth_to_3D depth_data y g x
        = g.add (pixel_world cfg camera_TF depth_to_3D depth_data x y))
    ∧ (((pixel_world cfg camera_TF depth_to_3D depth_data x y).z ≤ -50
        ∨ 150 ≤ (pixel_world cfg camera_TF depth_to_3D depth_data x y).z) →
      accumulate_pixel cfg camera_TF depth_to_3D depth_data y g x = g)
    ∧ (pixel_world cfg camera_TF depth_to_3D depth_data x y
          ∈ (accumulate_depth cfg camera_TF depth_to_3D depth_data g).points
        ↔ (-50 < (pixel_world cfg camera_TF depth_to_3D depth_data x y).z
            ∧ (pixel_world cfg camera_TF depth_to_3D depth_data x y).z < 150)
          ∨ pixel_world cfg camera_TF depth_to_3D depth_data x y ∈ g.points) := by
  refine ⟨?_, ?_, ?_⟩
  · rintro ⟨h1, h2⟩
    rw [accumulate_pixel_eq]
    simp [hdepth, h1, h2]
  · intro h
    rw [accumulate_pixel_eq]
    have hb : ¬ ((pixel_world cfg camera_TF depth_to_3D depth_data x y).z < 150
        ∧ (pixel_world cfg camera_TF depth_to_3D depth_data x y).z > -50) := by
      rintro ⟨h1, h2⟩
      rcases h with h | h
      · exact absurd h2 (not_lt.mpr h)
      · exact absurd h1 (not_lt.mpr h)
    simp [hdepth, hb]
  · rw [accumulate_depth_mem]
    constructor
    · rintro (h | ⟨y2, _, x2, _, _, _, ⟨h1, h2⟩, heq⟩)
      · exact Or.inr h
      · left
        rw [heq]
        exact ⟨h2, h1⟩
    · rintro (⟨h1, h2⟩ | h)
      · exact Or.inr ⟨y, hy, x, hx, hxw, hdepth, ⟨h2, h1⟩, rfl⟩
      · exact Or.inl h

end AccumulateProofs

/-! ## The scan counter through one cycle and through a run -/

section ScanProofs

/-- The depth block decrements a positive `obstacle_scan` and leaves any other value. -/
lemma depth_block_obstacle_scan (cfg : Config ℝ) (s : LoopState ℝ)
    (camera_TF : camera_transform ℝ) (frames : Frames ℝ) :
    (depth_block cfg s camera_TF frames).1.obstacle_scan
      = if 0 < s.obstacle_scan then s.obstacle_scan - 1 else s.obstacle_scan := by
  unfold depth_block
  by_cases h : 0 < s.obstacle_scan
  · by_cases h1 : s.obstacle_scan - 1 = 0 <;> simp [h, h1]
  · by_cases hd : cfg.do_depth = true <;> simp [h, hd]

/-- The depth block extracts and responds exactly when `obstacle_scan` was 1. -/
lemma depth_block_events (cfg : Config ℝ) (s : LoopState ℝ)
    (camera_TF : camera_transform ℝ) (frames : Frames ℝ) :
    (depth_block cfg s camera_TF frames).2
      = if s.obstacle_scan = 1 then
          [Event.find_obstacles,
            Event.response_obstacles (cfg.find_obstacles
              (accumulate_depth cfg camera_TF (static_projector s.depth_to_3D frames)
                frames.depth_data s.obstacles))]
        else [] := by
  unfold depth_block
  by_cases h : 0 < s.obstacle_scan
  · by_cases h1 : s.obstacle_scan = 1
    · simp [h, h1]
    · have h2 : ¬ s.obstacle_scan - 1 = 0 := by omega
      simp [h, h1, h2]
  · have h1 : ¬ s.obstacle_scan = 1 := by omega
    by_cases hd : cfg.do_depth = true <;> simp [h, h1, hd]

/-- The grid after the depth block. -/
lemma depth_block_obstacles (cfg : Config ℝ) (s : LoopState ℝ)
    (camera_TF : camera_transform ℝ) (frames : Frames ℝ) :
    (depth_block cfg s camera_TF frames).1.obstacles
      = if cfg.do_depth = true ∨ 0 < s.obstacle_scan then
          accumulate_depth cfg camera_TF (static_projector s.depth_to_3D frames)
            frames.depth_data s.obstacles
        else s.obstacles := by
  unfold depth_block
  by_cases h : 0 < s.obstacle_scan
  · by_cases h1 : s.obstacle_scan - 1 = 0 <;> simp [h, h1]
  · by_cases hd : cfg.do_depth = true <;> simp [h, hd]

/-- The color block leaves the scan counter, the target, the grid and the link alone. -/
lemma color_block_frame (cfg : Config ℝ) (s : LoopState ℝ)
    (camera_TF : camera_transform ℝ) (detections : List ((Nat → Nat → ℝ) × Int)) :
    (color_block cfg s camera_TF detections).1.obstacle_scan = s.obstacle_scan
    ∧ (color_block cfg s camera_TF detections).1.obstacle_scan_target = s.obstacle_scan_target
    ∧ (color_block cfg s camera_TF detections).1.obstacles = s.obstacles
    ∧ (color_block cfg s camera_TF detections).1.serial = s.serial
    ∧ (color_block cfg s camera_TF detections).1.depth_to_3D = s.depth_to_3D
    ∧ (color_block cfg s camera_TF detections).1.stepper.camera_Z_angle
        = s.stepper.camera_Z_angle := by
  unfold color_block
  by_cases hc : cfg.do_color = true
  · simp only [hc, if_true]
    refine ⟨trivial, trivial, trivial, trivial, trivial, ?_⟩
    split_ifs <;> rfl
  · simp [hc]

/-- The color block sends no response and does not call `find_obstacles`. -/
lemma color_block_events (cfg : Config ℝ) (s : LoopState ℝ)
    (camera_TF : camera_transform ℝ) (detections : List ((Nat → Nat → ℝ) × Int)) :
    (color_block cfg s camera_TF detections).2.countP Event.is_find_obstacles = 0
    ∧ (color_block cfg s camera_TF detections).2.countP Event.is_response = 0
    ∧ (color_block cfg s camera_TF detections).2.countP Event.is_response_obstacles = 0 := by
  unfold color_block
  by_cases hc : cfg.do_color = true
  · simp [hc, Event.is_find_obstacles, Event.is_response, Event.is_response_obstacles]
  · simp [hc]

/-- The image dump leaves the scan counter alone. -/
lemma image_dump_obstacle_scan (cfg : Config ℝ) (s : LoopState ℝ) (k : Int) :
    (image_dump cfg s k).obstacle_scan = s.obstacle_scan := by
  unfold image_dump
  split_ifs <;> rfl

/-- The scan counter and the events of the part of the loop body that follows the frame
check. -/
lemma frame_block_scan (cfg : Config ℝ) (s : LoopState ℝ)
    (camera_TF : camera_transform ℝ) (inp : CycleInput ℝ) :
    (frame_block cfg s camera_TF inp).1.obstacle_scan
        = (if 0 < s.obstacle_scan then s.obstacle_scan - 1 else s.obstacle_scan)
    ∧ (frame_block cfg s camera_TF inp).2.countP Event.is_find_obstacles
        = (if s.obstacle_scan = 1 then 1 else 0)
    ∧ (frame_block cfg s camera_TF inp).2.countP Event.is_response
        = (if s.obstacle_scan = 1 then 1 else 0)
    ∧ (frame_block cfg s camera_TF inp).2.countP Event.is_response_obstacles
        = (if s.obstacle_scan = 1 then 1 else 0) := by
  have hc := color_block_frame cfg s camera_TF inp.frames.detections
  have he := color_block_events cfg s camera_TF inp.frames.detections
  simp only [frame_block, image_dump_obstacle_scan, depth_block_obstacle_scan,
    depth_block_events, List.countP_append, he.1, he.2.1, he.2.2, hc.1, zero_add]
  refine ⟨trivial, ?_, ?_, ?_⟩ <;>
    by_cases h1 : s.obstacle_scan = 1 <;>
    simp [h1, Event.is_find_obstacles, Event.is_response, Event.is_response_obstacles]

/-- A cycle whose network block returns and whose frames and key let the loop go on
reaches the end of the loop body. -/
lemma cycle_next (cfg : Config ℝ) (s s0 : LoopState ℝ) (ev0 : List (Event ℝ))
    (inp : CycleInput ℝ)
    (hnet : check_network cfg s inp.request inp.home_wait = some (s0, ev0))
    (hgo : loop_goes_on cfg inp) :
    cycle cfg s inp
      = CycleResult.next
          (frame_block cfg
            { poll_block cfg s0 inp.serial_in with
              framecount := (poll_block cfg s0 inp.serial_in).framecount + 1 }
            (camera_transform.ctor cfg.field_x_beacon cfg.field_y_beacon
              (poll_block cfg s0 inp.serial_in).stepper.get_angle_deg) inp).1
          (ev0 ++ (frame_block cfg
            { poll_block cfg s0 inp.serial_in with
              framecount := (poll_block cfg s0 inp.serial_in).framecount + 1 }
            (camera_transform.ctor cfg.field_x_beacon cfg.field_y_beacon
              (poll_block cfg s0 inp.serial_in).stepper.get_angle_deg) inp).2) := by
  obtain ⟨h1, h2, h3, h4, h5, h6⟩ := hgo
  simp only [cycle, hnet]
  simp [h1, h2, h3, h4, h5, h6]

/-- The poll of the stepper leaves the scan counter alone. -/
lemma poll_block_obstacle_scan (cfg : Config ℝ) (s : LoopState ℝ) (serial_in : List Nat) :
    (poll_block cfg s serial_in).obstacle_scan = s.obstacle_scan := rfl

end ScanProofs

section RunProofs

/-- The scan counter and the events of a cycle that reaches the end of the loop body. -/
lemma cycle_scan (cfg : Config ℝ) (s s0 : LoopState ℝ) (ev0 : List (Event ℝ))
    (inp : CycleInput ℝ)
    (hnet : check_network cfg s inp.request inp.home_wait = some (s0, ev0))
    (hgo : loop_goes_on cfg inp) :
    ∃ s1 ev, cycle cfg s inp = CycleResult.next s1 (ev0 ++ ev)
      ∧ s1.obstacle_scan
          = (if 0 < s0.obstacle_scan then s0.obstacle_scan - 1 else s0.obstacle_scan)
      ∧ ev.countP Event.is_find_obstacles = (if s0.obstacle_scan = 1 then 1 else 0)
      ∧ ev.countP Event.is_response = (if s0.obstacle_scan = 1 then 1 else 0)
      ∧ ev.countP Event.is_response_obstacles = (if s0.obstacle_scan = 1 then 1 else 0) :=
  ⟨_, _, cycle_next cfg s s0 ev0 inp hnet hgo,
    frame_block_scan cfg
      { poll_block cfg s0 inp.serial_in with
        framecount := (poll_block cfg s0 inp.serial_in).framecount + 1 }
      (camera_transform.ctor cfg.field_x_beacon cfg.field_y_beacon
        (poll_block cfg s0 inp.serial_in).stepper.get_angle_deg) inp⟩

/-- A run of cycles without requests: every cycle reaches the next one, the extraction and
its response happen in the cycle that brings `obstacle_scan` from 1 to 0 and in no
other, and the counter ends at 0 once it has run out. -/
lemma run_without_requests (cfg : Config ℝ) (rest : List (CycleInput ℝ)) :
    ∀ s : LoopState ℝ, (∀ inp ∈ rest, inp.request = none ∧ loop_goes_on cfg inp) →
      ∃ s2 evs, run cfg s rest = some (s2, evs) ∧ evs.length = rest.length
        ∧ (∀ (k : Nat) (ev : List (Event ℝ)), evs[k]? = some ev →
            ev.countP Event.is_find_obstacles = (if (k : Int) + 1 = s.obstacle_scan then 1 else 0)
            ∧ ev.countP Event.is_response = (if (k : Int) + 1 = s.obstacle_scan then 1 else 0)
            ∧ ev.countP Event.is_response_obstacles
                = (if (k : Int) + 1 = s.obstacle_scan then 1 else 0))
        ∧ s2.obstacle_scan
            = (if 0 < s.obstacle_scan then max (s.obstacle_scan - rest.length) 0
               else s.obstacle_scan) := by
  induction rest with
  | nil =>
    intro s _
    refine ⟨s, [], rfl, rfl, ?_, ?_⟩
    · intro k ev h
      simp at h
    · by_cases h : 0 < s.obstacle_scan
      · simp only [h, if_true, List.length_nil, Nat.cast_zero, sub_zero]
        exact (max_eq_left (le_of_lt h)).symm
      · simp only [h, if_false]
  | cons inp rest ih =>
    intro s h
    have hinp := h inp (List.mem_cons_self _ _)
    have hnet : check_network cfg s inp.request inp.home_wait = some (s, []) := by
      rw [hinp.1]; rfl
    obtain ⟨s1, ev1, hcycle, hs1, hf, hr, hro⟩ := cycle_scan cfg s s [] inp hnet hinp.2
    obtain ⟨s2, evs, hrun, hlen, hev, hfin⟩ :=
      ih s1 (fun i hi => h i (List.mem_cons_of_mem _ hi))
    refine ⟨s2, ([] ++ ev1) :: evs, ?_, ?_, ?_, ?_⟩
    · simp only [run, hcycle, hrun]
    · simp [hlen]
    · intro k ev hk
      cases k with
      | zero =>
        simp only [List.getElem?_cons_zero, Option.some.injEq] at hk
        subst hk
        simp only [List.nil_append, hf, hr, hro, Nat.cast_zero, zero_add]
        have e : ((1 : Int) = s.obstacle_scan) ↔ (s.obstacle_scan = 1) := eq_comm
        simp only [e, and_self]
      | succ k =>
        simp only [List.getElem?_cons_succ] at hk
        have hk2 := hev k ev hk
        have e : ((k : Int) + 1 = s1.obstacle_scan)
            ↔ (((k + 1 : Nat) : Int) + 1 = s.obstacle_scan) := by
          rw [hs1]
          split_ifs <;> push_cast <;> omega
        simp only [e] at hk2
        exact hk2
    · rw [hfin, hs1]
      simp only [List.length_cons, Nat.cast_add, Nat.cast_one]
      by_cases h0 : 0 < s.obstacle_scan
      · simp only [h0, if_true]
        by_cases h1 : 0 < s.obstacle_scan - 1
        · simp only [h1, if_true]
          congr 1
          ring
        · simp only [h1, if_false]
          have h2 : s.obstacle_scan = 1 := by omega
          rw [h2]
          simp
      · simp only [h0, if_false]

/-- Claim C2: after a `T` request arms the scan, and with no further request, in a run
whose frames and keys let the loop go on every cycle reaches the next one; counting the
cycle that handles `T` as the first, `find_obstacles` is called once and one response,
the obstacle list, is sent in the 18th cycle, no extraction and no response happens in
any other cycle, and `obstacle_scan` is 0 from the 18th cycle on (it is `18 - n` after
`n ≤ 18` cycles). This holds whatever the stepper angle is, in particular when it stays
within 4 degrees of the target. -/
theorem scan_budget_exact (cfg : Config ℝ) (s : LoopState ℝ) (cmd : aurora_beacon_command ℝ)
    (first : CycleInput ℝ) (rest : List (CycleInput ℝ))
    (hT : cmd.letter.toUpper = 'T') (hfirst : first.request = some cmd)
    (hrest : ∀ inp ∈ rest, inp.request = none)
    (hgo : ∀ inp ∈ first :: rest, loop_goes_on cfg inp) :
    ∃ s2 evs, run cfg s (first :: rest) = some (s2, evs)
      ∧ evs.length = rest.length + 1
      ∧ (∀ (k : Nat) (ev : List (Event ℝ)), evs[k]? = some ev →
          ev.countP Event.is_find_obstacles = (if k + 1 = 18 then 1 else 0)
          ∧ ev.countP Event.is_response = (if k + 1 = 18 then 1 else 0)
          ∧ ev.countP Event.is_response_obstacles = (if k + 1 = 18 then 1 else 0))
      ∧ s2.obstacle_scan = max (17 - (rest.length : Int)) 0
      ∧ (17 ≤ rest.length → s2.obstacle_scan = 0) := by
  have hnet : ∃ s0, check_network cfg s first.request first.home_wait = some (s0, [])
      ∧ s0.obstacle_scan = 18 := by
    rw [hfirst]
    have hP : cmd.letter.toUpper ≠ 'P' := by rw [hT]; decide
    have hO : cmd.letter.toUpper ≠ 'O' := by rw [hT]; decide
    have hH : cmd.letter.toUpper ≠ 'H' := by rw [hT]; decide
    simp only [check_network, handle_request, hP, hO, hH, hT, if_true, if_false]
    exact ⟨_, rfl, rfl⟩
  obtain ⟨s0, hnet, hs0⟩ := hnet
  obtain ⟨s1, ev1, hcycle, hs1, hf, hr, hro⟩ :=
    cycle_scan cfg s s0 [] first hnet (hgo first (List.mem_cons_self _ _))
  rw [hs0] at hs1 hf hr hro
  norm_num at hs1 hf hr hro
  obtain ⟨s2, evs, hrun, hlen, hev, hfin⟩ :=
    run_without_requests cfg rest s1
      (fun i hi => ⟨hrest i hi, hgo i (List.mem_cons_of_mem _ hi)⟩)
  rw [hs1] at hfin hev
  have hfin2 : s2.obstacle_scan = max (17 - (rest.length : Int)) 0 := by
    rw [hfin]; simp
  refine ⟨s2, ([] ++ ev1) :: evs, ?_, ?_, ?_, hfin2, ?_⟩
  · simp only [run, hcycle, hrun]
  · simp [hlen]
  · intro k ev hk
    cases k with
    | zero =>
      simp only [List.getElem?_cons_zero, Option.some.injEq] at hk
      subst hk
      simp only [List.nil_append, List.countP_eq_zero]
      exact ⟨by simpa using hf, by simpa using hr, by simpa using hro⟩
    | succ k =>
      simp only [List.getElem?_cons_succ] at hk
      have hk2 := hev k ev hk
      have e : ((k : Int) + 1 = 17) ↔ (k + 1 + 1 = 18) := by omega
      simp only [e] at hk2
      exact hk2
  · intro h17
    rw [hfin2]
    apply max_eq_right
    omega

end RunProofs

/-! ## The reference marker and the correction of the stepper angle -/

section MarkerProofs

/-- The C library `atan2` gives back the angle of a point of the unit circle. -/
lemma atan2_sin_cos (a : ℝ) (h1 : -Real.pi < a) (h2 : a ≤ Real.pi) :
    atan2 (Real.sin a) (Real.cos a) = a := by
  unfold atan2
  have h : (⟨Real.cos a, Real.sin a⟩ : ℂ) = Complex.cos a + Complex.sin a * Complex.I := by
    apply Complex.ext <;> simp [Complex.cos_ofReal_re, Complex.sin_ofReal_re]
  rw [h]
  exact Complex.arg_cos_add_sin_mul_I ⟨h1, h2⟩

/-- A marker straight ahead of the camera is observed at the pan angle. -/
lemma observed_bearing_ahead (field_x_beacon field_y_beacon t : ℝ) (h1 : -180 < t)
    (h2 : t ≤ 180) :
    observed_bearing (camera_transform.ctor field_x_beacon field_y_beacon t) marker_ahead 1
      = t := by
  have hpi := Real.pi_pos
  have ha1 : -Real.pi < t * Real.pi / 180 := by
    have : -Real.pi = (-180) * Real.pi / 180 := by ring
    rw [this]
    apply div_lt_div_of_pos_right _ (by norm_num)
    exact mul_lt_mul_of_pos_right h1 hpi
  have ha2 : t * Real.pi / 180 ≤ Real.pi := by
    have : Real.pi = 180 * Real.pi / 180 := by ring
    conv_rhs => rw [this]
    apply div_le_div_of_nonneg_right _ (by norm_num)
    exact mul_le_mul_of_nonneg_right h2 hpi.le
  simp only [observed_bearing, camera_transform.ctor, camera_transform.world_from_camera,
    coord_rotator.ctor, coord_rotator.rotate, vec3.sub, marker_ahead]
  norm_num
  rw [atan2_sin_cos _ ha1 ha2]
  field_simp

/-- The sighting of a known reference marker only sets the correction of the watcher, to
the observed bearing minus the reference bearing of the catalog. -/
lemma found_marker_reference (get_marker_info : Int → marker_info_t ℝ)
    (camera_TF : camera_transform ℝ) (p : marker_watcher_print ℝ) (m : Nat → Nat → ℝ)
    (ID : Int) (hknown : ¬ (get_marker_info ID).true_size < 0)
    (href : (get_marker_info ID).side < 0) :
    p.found_marker get_marker_info camera_TF m ID
      = { p with angle_correction :=
            observed_bearing camera_TF m (get_marker_info ID).true_size
              - (get_marker_info ID).shift.z } := by
  simp only [marker_watcher_print.found_marker, hknown, href, if_true, if_false,
    observed_bearing]

/-- The depth block leaves the stepper and the link alone. -/
lemma depth_block_stepper (cfg : Config ℝ) (s : LoopState ℝ)
    (camera_TF : camera_transform ℝ) (frames : Frames ℝ) :
    (depth_block cfg s camera_TF frames).1.stepper = s.stepper
    ∧ (depth_block cfg s camera_TF frames).1.serial = s.serial := by
  unfold depth_block
  by_cases h : 0 < s.obstacle_scan
  · by_cases h1 : s.obstacle_scan - 1 = 0 <;> simp [h, h1]
  · by_cases hd : cfg.do_depth = true <;> simp [h, hd]

/-- The image dump leaves the stepper and the link alone. -/
lemma image_dump_stepper (cfg : Config ℝ) (s : LoopState ℝ) (k : Int) :
    (image_dump cfg s k).stepper = s.stepper ∧ (image_dump cfg s k).serial = s.serial := by
  unfold image_dump
  split_ifs <;> exact ⟨rfl, rfl⟩

/-- The stepper and the link after the part of the loop body that follows the frame
check are those left by the color block. -/
lemma frame_block_stepper (cfg : Config ℝ) (s : LoopState ℝ)
    (camera_TF : camera_transform ℝ) (inp : CycleInput ℝ) :
    (frame_block cfg s camera_TF inp).1.stepper
        = (color_block cfg s camera_TF inp.frames.detections).1.stepper
    ∧ (frame_block cfg s camera_TF inp).1.serial = s.serial := by
  simp only [frame_block, (image_dump_stepper _ _ _).1, (image_dump_stepper _ _ _).2,
    (depth_block_stepper _ _ _ _).1, (depth_block_stepper _ _ _ _).2,
    (color_block_frame _ _ _ _).2.2.2.1, and_self]

/-- The stepper after the color block has seen one known reference marker: the correction
is decreased by the observed bearing minus the reference bearing. -/
lemma color_block_reference (cfg : Config ℝ) (s : LoopState ℝ)
    (camera_TF : camera_transform ℝ) (m : Nat → Nat → ℝ) (ID : Int)
    (hcolor : cfg.do_color = true) (hknown : ¬ (cfg.get_marker_info ID).true_size < 0)
    (href : (cfg.get_marker_info ID).side < 0) :
    (color_block cfg s camera_TF [(m, ID)]).1.stepper
      = { s.stepper with angle_correction := s.stepper.angle_correction
            - (observed_bearing camera_TF m (cfg.get_marker_info ID).true_size
                - (cfg.get_marker_info ID).shift.z) } := by
  simp only [color_block, hcolor, if_true, List.foldl_cons, List.foldl_nil,
    found_marker_reference cfg.get_marker_info camera_TF _ m ID hknown href]
  split_ifs with h
  · rfl
  · simp only [ne_eq, not_not] at h
    rw [h, sub_zero]

/-- Claim C3, amended: a frame whose one sighting is a known reference marker (`side < 0`)
sets the correction of the watcher to the observed bearing minus the reference bearing,
and the loop subtracts that difference from the correction of the stepper controller;
the raw angle and the link are untouched (no seek), and `get_angle_deg` read next is the
earlier value minus the difference. -/
theorem reference_marker_correction (cfg : Config ℝ) (s : LoopState ℝ)
    (camera_TF : camera_transform ℝ) (m : Nat → Nat → ℝ) (ID : Int)
    (hcolor : cfg.do_color = true) (hknown : ¬ (cfg.get_marker_info ID).true_size < 0)
    (href : (cfg.get_marker_info ID).side < 0) :
    (marker_watcher_print.ctor.found_marker cfg.get_marker_info camera_TF m ID).angle_correction
        = observed_bearing camera_TF m (cfg.get_marker_info ID).true_size
            - (cfg.get_marker_info ID).shift.z
    ∧ (color_block cfg s camera_TF [(m, ID)]).1.stepper.angle_correction
        = s.stepper.angle_correction
          - (observed_bearing camera_TF m (cfg.get_marker_info ID).true_size
              - (cfg.get_marker_info ID).shift.z)
    ∧ (color_block cfg s camera_TF [(m, ID)]).1.stepper.camera_Z_angle
        = s.stepper.camera_Z_angle
    ∧ (color_block cfg s camera_TF [(m, ID)]).1.serial = s.serial
    ∧ (color_block cfg s camera_TF [(m, ID)]).1.stepper.get_angle_deg
        = s.stepper.get_angle_deg
          - (observed_bearing camera_TF m (cfg.get_marker_info ID).true_size
              - (cfg.get_marker_info ID).shift.z) := by
  have hst := color_block_reference cfg s camera_TF m ID hcolor hknown href
  refine ⟨?_, ?_, ?_, ?_, ?_⟩
  · rw [found_marker_reference cfg.get_marker_info camera_TF _ m ID hknown href]
  · rw [hst]
  · rw [hst]
  · exact (color_block_frame cfg s camera_TF [(m, ID)]).2.2.2.1
  · rw [hst]
    simp only [stepper_controller.get_angle_deg]
    ring

end MarkerProofs

/-! ## The concrete states are reached by the loop -/

section Reached

/-- A fold whose step never changes the grid returns the grid it started from. -/
lemma foldl_unchanged {G α : Type} (step : G → α → G) (hstep : ∀ g x, step g x = g)
    (l : List α) (g : G) : l.foldl step g = g := by
  induction l generalizing g with
  | nil => rfl
  | cons x l ih => rw [List.foldl_cons, hstep, ih]

/-- A depth frame without data deposits nothing. -/
lemma accumulate_depth_blank (cfg : Config ℝ) (camera_TF : camera_transform ℝ)
    (depth_to_3D : realsense_projector ℝ) (depth_data : Nat → Nat) (g : obstacle_grid ℝ)
    (hblank : ∀ i, depth_data i % 65536 = 0) :
    accumulate_depth cfg camera_TF depth_to_3D depth_data g = g := by
  unfold accumulate_depth
  apply foldl_unchanged
  intro g y
  apply foldl_unchanged
  intro g x
  simp [accumulate_pixel, hblank]

/-- The step count of a seek to 0 degrees without correction: 73 degrees above the zero
of the stepper are 81.1 steps, truncated to 81. -/
lemma trunc_seek_zero :
    trunc (((0 : ℝ) - 0 - stepper_angle_zero) * stepper_angle_to_step) = 81 := by
  have h0 : (0 : ℝ) ≤ (0 - 0 - stepper_angle_zero) * stepper_angle_to_step := by
    norm_num [stepper_angle_zero, stepper_angle_to_step]
  rw [trunc, if_pos h0, Int.floor_eq_iff]
  norm_num [stepper_angle_zero, stepper_angle_to_step]

/-- The state `armed_far_state` is the one the loop is in after the cycle
`blank_scan_request_input` from `idle_state`: the request arms the scan with 18 frames
and the same cycle already counts one of them, although the stepper stands at -73
degrees. -/
lemma armed_far_state_reached :
    cycle example_config idle_state blank_scan_request_input
      = CycleResult.next armed_far_state [Event.publish ⟨[], -73⟩] := by
  have hnet : check_network example_config (idle_state : LoopState ℝ)
      (blank_scan_request_input : CycleInput ℝ).request
      (blank_scan_request_input : CycleInput ℝ).home_wait
        = some (⟨⟨-73, 0, 0⟩, ⟨[], [81, 81]⟩, 18, 0, ⟨[]⟩, none, 0, 0⟩, []) := by
    have ht : float_to_int (-((stepper_angle_zero : ℝ) * stepper_angle_to_step)) = 81 := by
      rw [float_to_int_of_fits _ (by norm_num [stepper_angle_zero, stepper_angle_to_step])
        (by norm_num [stepper_angle_zero, stepper_angle_to_step]), ← trunc_seek_zero]
      congr 1
      ring
    have h0 : float_to_int (0 : ℝ) = 0 := by
      rw [float_to_int_of_fits _ (by norm_num) (by norm_num)]
      simp [trunc]
    simp [check_network, handle_request, blank_scan_request_input, idle_state,
      example_config, stepper_controller.absolute_seek, seek_steps, SerialPort.write,
      obstacle_grid.clear, ht, h0]
  have hgo : loop_goes_on (example_config : Config ℝ) blank_scan_request_input := by
    simp [loop_goes_on, example_config, blank_scan_request_input]
  have hcycle := cycle_next example_config idle_state _ [] blank_scan_request_input hnet hgo
  rw [hcycle]
  simp [frame_block, color_block, depth_block, image_dump, poll_block, static_projector,
    stepper_controller.serial_poll, stepper_controller.read_serial, read_serial_loop,
    example_config, blank_scan_request_input, marker_watcher_print.ctor, armed_far_state,
    accumulate_depth_blank, stepper_controller.get_angle_deg]

/-- The state `facing_ten_state` is the one the loop is in after the cycle
`point_request_input` from `software_idle_state`: without the serial link the `P`
request for 10 degrees is acknowledged and sets the software angle to 10. -/
lemma facing_ten_state_reached :
    cycle software_config software_idle_state point_request_input
      = CycleResult.next facing_ten_state [Event.response_empty, Event.publish ⟨[], 10⟩] := by
  have hnet : check_network software_config (software_idle_state : LoopState ℝ)
      (point_request_input : CycleInput ℝ).request
      (point_request_input : CycleInput ℝ).home_wait
        = some (⟨⟨10, 0, 0⟩, ⟨[], []⟩, 0, -999, ⟨[]⟩, none, 0, 0⟩,
            [Event.response_empty]) := by
    simp [check_network, handle_request, point_request_input, software_idle_state,
      software_config, stepper_controller.absolute_seek]
  have hgo : loop_goes_on (software_config : Config ℝ) point_request_input := by
    simp [loop_goes_on, software_config, point_request_input]
  have hcycle := cycle_next software_config software_idle_state _ _ point_request_input
    hnet hgo
  rw [hcycle]
  simp [frame_block, color_block, depth_block, image_dump, poll_block,
    stepper_controller.serial_poll, software_config, point_request_input,
    marker_watcher_print.ctor, facing_ten_state, stepper_controller.get_angle_deg]

end Reached

/-! ## The properties on concrete inputs -/

section Concrete

/-- Claim C5 on concrete requests: the letters `Z` and `z` are only acknowledged, at rest
and with a scan armed. -/
theorem unknown_command_only_acknowledged_witness :
    ('Z'.toUpper ≠ 'P' ∧ 'Z'.toUpper ≠ 'O' ∧ 'Z'.toUpper ≠ 'H' ∧ 'Z'.toUpper ≠ 'T')
    ∧ handle_request (example_config : Config ℚ) idle_state ⟨'Z', 30⟩ []
        = some (idle_state, [Event.response_empty])
    ∧ handle_request (example_config : Config ℚ) armed_far_state ⟨'z', 30⟩ []
        = some (armed_far_state, [Event.response_empty]) :=
  ⟨by decide,
    unknown_command_only_acknowledged example_config idle_state ⟨'Z', 30⟩ []
      (by decide) (by decide) (by decide) (by decide),
    unknown_command_only_acknowledged example_config armed_far_state ⟨'z', 30⟩ []
      (by decide) (by decide) (by decide) (by decide)⟩

/-- Claim C8 on a concrete image: with zero coefficients the direction cached for the
principal pixel `(240,135)` is `(0,0)`. -/
theorem undistortion_identity_witness :
    (∀ i, (example_intrinsics : rs2_intrinsics ℚ).coeffs i = 0)
    ∧ (240 < (example_intrinsics : rs2_intrinsics ℚ).width
        ∧ 135 < (example_intrinsics : rs2_intrinsics ℚ).height)
    ∧ (realsense_projector.ctor (example_intrinsics : rs2_intrinsics ℚ)).xdir
        (135 * (example_intrinsics : rs2_intrinsics ℚ).width + 240) = 0
    ∧ (realsense_projector.ctor (example_intrinsics : rs2_intrinsics ℚ)).ydir
        (135 * (example_intrinsics : rs2_intrinsics ℚ).width + 240) = 0 := by
  have hw : 240 < (example_intrinsics : rs2_intrinsics ℚ).width := by
    norm_num [example_intrinsics]
  have hh : 135 < (example_intrinsics : rs2_intrinsics ℚ).height := by
    norm_num [example_intrinsics]
  exact ⟨fun _ => rfl, ⟨hw, hh⟩,
    (undistortion_identity (example_intrinsics : rs2_intrinsics ℚ) (Or.inl (fun _ => rfl))
      240 135 hw hh).2.2.1
      (by norm_num [example_intrinsics]) (by norm_num [example_intrinsics])
      (by norm_num [example_intrinsics]) (by norm_num [example_intrinsics])⟩

/-- The frames and the key of `quiet_input` let the loop go on. -/
lemma quiet_input_goes_on : loop_goes_on (example_config : Config ℝ) quiet_input := by
  simp [loop_goes_on, example_config, quiet_input, wall_frames]

/-- The frames and the key of `scan_request_input` let the loop go on. -/
lemma scan_request_input_goes_on :
    loop_goes_on (example_config : Config ℝ) scan_request_input := by
  simp [loop_goes_on, example_config, scan_request_input, wall_frames]

/-- The frames and the key of `reference_marker_input` let the loop go on. -/
lemma reference_marker_input_goes_on :
    loop_goes_on (software_config : Config ℝ) reference_marker_input := by
  simp [loop_goes_on, software_config, reference_marker_input]

/-- Claim C2 on a concrete run: a `T` request at rest followed by 19 cycles without
request; the one extraction and the one response fall in the 18th of the 20 cycles and
`obstacle_scan` ends at 0. -/
theorem scan_budget_exact_witness :
    (⟨'T', 0⟩ : aurora_beacon_command ℝ).letter.toUpper = 'T'
    ∧ ∃ s2 evs, run example_config idle_state
          (scan_request_input :: List.replicate 19 quiet_input) = some (s2, evs)
      ∧ evs.length = 20
      ∧ (∀ (k : Nat) (ev : List (Event ℝ)), evs[k]? = some ev →
          ev.countP Event.is_find_obstacles = (if k + 1 = 18 then 1 else 0)
          ∧ ev.countP Event.is_response = (if k + 1 = 18 then 1 else 0)
          ∧ ev.countP Event.is_response_obstacles = (if k + 1 = 18 then 1 else 0))
      ∧ s2.obstacle_scan = 0 := by
  refine ⟨by decide, ?_⟩
  obtain ⟨s2, evs, h1, h2, h3, _, h5⟩ :=
    scan_budget_exact example_config idle_state ⟨'T', 0⟩ scan_request_input
      (List.replicate 19 quiet_input) (by decide) rfl
      (by
        intro inp h
        rw [List.eq_of_mem_replicate h]
        rfl)
      (by
        intro inp h
        rcases List.mem_cons.mp h with h | h
        · rw [h]; exact scan_request_input_goes_on
        · rw [List.eq_of_mem_replicate h]; exact quiet_input_goes_on)
  exact ⟨s2, evs, h1, by simpa using h2, h3, h5 (by simp)⟩

end Concrete

section ConcreteLoop

/-- Without `do_depth` the image dump leaves the grid alone. -/
lemma image_dump_obstacles (cfg : Config ℝ) (s : LoopState ℝ) (k : Int)
    (hd : cfg.do_depth = false) : (image_dump cfg s k).obstacles = s.obstacles := by
  unfold image_dump
  split_ifs <;> simp_all

/-- The direction cached for the principal pixel of `example_intrinsics`. -/
lemma example_principal_direction :
    (realsense_projector.ctor (example_intrinsics : rs2_intrinsics ℝ)).xdir
        (135 * (example_intrinsics : rs2_intrinsics ℝ).width + 240) = 0
    ∧ (realsense_projector.ctor (example_intrinsics : rs2_intrinsics ℝ)).ydir
        (135 * (example_intrinsics : rs2_intrinsics ℝ).width + 240) = 0 := by
  have hw : 240 < (example_intrinsics : rs2_intrinsics ℝ).width := by
    norm_num [example_intrinsics]
  have hh : 135 < (example_intrinsics : rs2_intrinsics ℝ).height := by
    norm_num [example_intrinsics]
  have h := ctor_dir (example_intrinsics : rs2_intrinsics ℝ) 240 135 hw hh
  rw [pixel_direction_raw _ _ _ (Or.inl (fun _ => rfl))] at h
  constructor
  · rw [h.1]; norm_num [example_intrinsics]
  · rw [h.2]; norm_num [example_intrinsics]

/-- In front of `wall_frames` the sample at the principal pixel has a positive depth and
its world point stands at the height of the camera, 70, for every pan angle. -/
lemma wall_principal_pixel (t : ℝ) :
    0 < pixel_depth (example_config : Config ℝ) (wall_frames : Frames ℝ).depth_data 240 135
    ∧ (pixel_world example_config (camera_transform.ctor 0 0 t)
        (realsense_projector.ctor example_intrinsics)
        (wall_frames : Frames ℝ).depth_data 240 135).z = 70 := by
  have hdir := example_principal_direction
  constructor
  · norm_num [pixel_depth, example_config, wall_frames]
  · simp only [pixel_world, camera_transform.world_from_camera, realsense_projector.lookup,
      coord_rotator.rotate, camera_transform.ctor]
    have hi : (realsense_projector.ctor (example_intrinsics : rs2_intrinsics ℝ)).intrinsics
        = example_intrinsics := rfl
    rw [hi, hdir.1, hdir.2]
    norm_num

/-- Claim C4 on a concrete sample: in front of `wall_frames` the sample at the pixel
`(240,135)` has a positive depth and a world height of 70, inside the band, and its
world point is in the grid after the loops. -/
theorem z_band_filter_witness :
    (50 ≤ 240 ∧ 240 < (example_config : Config ℝ).depth_w
      ∧ 135 < (example_config : Config ℝ).depth_h
      ∧ 0 < pixel_depth (example_config : Config ℝ) (wall_frames : Frames ℝ).depth_data 240 135)
    ∧ (pixel_world example_config far_camera_TF (realsense_projector.ctor example_intrinsics)
        (wall_frames : Frames ℝ).depth_data 240 135).z = 70
    ∧ pixel_world example_config far_camera_TF (realsense_projector.ctor example_intrinsics)
        (wall_frames : Frames ℝ).depth_data 240 135
      ∈ (accumulate_depth example_config far_camera_TF
          (realsense_projector.ctor example_intrinsics)
          (wall_frames : Frames ℝ).depth_data ⟨[]⟩).points := by
  have hw : 240 < (example_config : Config ℝ).depth_w := by norm_num [example_config]
  have hh : 135 < (example_config : Config ℝ).depth_h := by norm_num [example_config]
  have hp := wall_principal_pixel (-73)
  have hz : (pixel_world example_config far_camera_TF
      (realsense_projector.ctor example_intrinsics)
      (wall_frames : Frames ℝ).depth_data 240 135).z = 70 := hp.2
  refine ⟨⟨by norm_num, hw, hh, hp.1⟩, hz, ?_⟩
  apply (z_band_filter example_config far_camera_TF
    (realsense_projector.ctor example_intrinsics) (wall_frames : Frames ℝ).depth_data ⟨[]⟩
    240 135 (by norm_num) hw hh hp.1).2.2.mpr
  left
  rw [hz]
  norm_num

/-- Claim C1 on a failing input: from `armed_far_state` (stepper connected and standing at
-73 degrees, scan armed for the target 0 degrees with 17 frames left, empty grid; the
state of `armed_far_state_reached`) the cycle `quiet_input` finds the angle 73 degrees
away from the target, so that the gate sets `do_scan` to false, and all the same the
cycle takes `obstacle_scan` from 17 to 16 and deposits a point, of height 70, into the
grid. -/
theorem scan_budget_consumed_out_of_tolerance :
    (example_config : Config ℝ).pan_stepper = true
    ∧ (armed_far_state : LoopState ℝ).obstacle_scan = 17
    ∧ (armed_far_state : LoopState ℝ).obstacles.points = []
    ∧ (before_depth_block example_config armed_far_state quiet_input).obstacle_scan = 17
    ∧ 4 < |((before_depth_block example_config armed_far_state quiet_input).obstacle_scan_target
              : ℝ)
          - (before_depth_block example_config armed_far_state
              quiet_input).stepper.get_angle_deg|
    ∧ scan_gate example_config (before_depth_block example_config armed_far_state quiet_input)
        = false
    ∧ ∃ s1 ev, cycle example_config armed_far_state quiet_input = CycleResult.next s1 ev
        ∧ s1.obstacle_scan = 16
        ∧ ∃ p ∈ s1.obstacles.points, p.z = 70 := by
  have hbefore : before_depth_block example_config (armed_far_state : LoopState ℝ) quiet_input
      = ⟨⟨-73, 0, 0⟩, ⟨[], [81, 81]⟩, 17, 0, ⟨[]⟩,
          some (realsense_projector.ctor example_intrinsics), 2, 0⟩ := by
    simp [before_depth_block, color_block, example_config, quiet_input, wall_frames,
      marker_watcher_print.ctor, poll_block, stepper_controller.serial_poll,
      stepper_controller.read_serial, read_serial_loop, armed_far_state]
  have hangle : (poll_block example_config (armed_far_state : LoopState ℝ)
      (quiet_input : CycleInput ℝ).serial_in).stepper.get_angle_deg = -73 := by
    simp [poll_block, stepper_controller.serial_poll, stepper_controller.read_serial,
      read_serial_loop, example_config, armed_far_state, quiet_input,
      stepper_controller.get_angle_deg]
  have hnet : check_network example_config (armed_far_state : LoopState ℝ)
      (quiet_input : CycleInput ℝ).request (quiet_input : CycleInput ℝ).home_wait
        = some (armed_far_state, []) := rfl
  have hcycle := cycle_next example_config armed_far_state armed_far_state [] quiet_input
    hnet quiet_input_goes_on
  rw [hangle] at hcycle
  refine ⟨rfl, rfl, rfl, ?_, ?_, ?_, _, _, hcycle, ?_, ?_⟩
  · rw [hbefore]
  · rw [hbefore]
    norm_num [stepper_controller.get_angle_deg, abs_of_pos]
  · rw [hbefore]
    simp [scan_gate, example_config, stepper_controller.get_angle_deg]
    norm_num [abs_of_pos]
  · rw [(frame_block_scan _ _ _ _).1]
    simp [poll_block, armed_far_state]
  · have hc := color_block_frame example_config
      { poll_block example_config (armed_far_state : LoopState ℝ)
          (quiet_input : CycleInput ℝ).serial_in with
        framecount := (poll_block example_config (armed_far_state : LoopState ℝ)
          (quiet_input : CycleInput ℝ).serial_in).framecount + 1 }
      (camera_transform.ctor (example_config : Config ℝ).field_x_beacon
        (example_config : Config ℝ).field_y_beacon (-73))
      (quiet_input : CycleInput ℝ).frames.detections
    have hp := wall_principal_pixel (-73)
    refine ⟨pixel_world example_config (camera_transform.ctor 0 0 (-73))
      (realsense_projector.ctor example_intrinsics)
      (wall_frames : Frames ℝ).depth_data 240 135, ?_, hp.2⟩
    simp only [frame_block]
    rw [image_dump_obstacles _ _ _ rfl, depth_block_obstacles, hc.1, hc.2.2.1, hc.2.2.2.2.1]
    have harmed : (false = true ∨ (0 : Int) < 17) := Or.inr (by norm_num)
    have hif : ((example_config : Config ℝ).do_depth = true
        ∨ 0 < ({ poll_block example_config (armed_far_state : LoopState ℝ)
          (quiet_input : CycleInput ℝ).serial_in with
        framecount := (poll_block example_config (armed_far_state : LoopState ℝ)
          (quiet_input : CycleInput ℝ).serial_in).framecount + 1 } : LoopState ℝ).obstacle_scan) :=
      harmed
    rw [if_pos hif, accumulate_depth_mem]
    right
    have hband : (pixel_world example_config (camera_transform.ctor 0 0 (-73))
          (realsense_projector.ctor example_intrinsics)
          (wall_frames : Frames ℝ).depth_data 240 135).z < 150
        ∧ (pixel_world example_config (camera_transform.ctor 0 0 (-73))
          (realsense_projector.ctor example_intrinsics)
          (wall_frames : Frames ℝ).depth_data 240 135).z > -50 := by
      rw [hp.2]
      norm_num
    exact ⟨135, by norm_num [example_config], 240, by norm_num [realsense_left_start],
      by norm_num [example_config], hp.1, hband, rfl⟩

end ConcreteLoop

section ConcreteMarker

/-- The catalog entry of marker 0 in `example_catalog`: known, reference, with reference
bearing 0. -/
lemma example_catalog_zero :
    ¬ ((software_config : Config ℝ).get_marker_info 0).true_size < 0
    ∧ ((software_config : Config ℝ).get_marker_info 0).side < 0
    ∧ ((software_config : Config ℝ).get_marker_info 0).true_size = 1
    ∧ ((software_config : Config ℝ).get_marker_info 0).shift.z = 0 := by
  simp [software_config, example_catalog]

/-- Claim C3 on a concrete frame: with the stepper at 10 degrees and no correction, the
reference marker 0 seen straight ahead is observed at 10 degrees against the reference
bearing 0; the watcher gets the correction 10 and the stepper controller the correction
-10, its raw angle and the link being untouched, so that `get_angle_deg` reads 0. -/
theorem reference_marker_correction_witness :
    ((software_config : Config ℝ).do_color = true
      ∧ ¬ ((software_config : Config ℝ).get_marker_info 0).true_size < 0
      ∧ ((software_config : Config ℝ).get_marker_info 0).side < 0)
    ∧ (marker_watcher_print.ctor.found_marker (software_config : Config ℝ).get_marker_info
        ten_camera_TF marker_ahead 0).angle_correction = 10
    ∧ (color_block software_config facing_ten_state ten_camera_TF
        [(marker_ahead, 0)]).1.stepper.angle_correction = -10
    ∧ (color_block software_config facing_ten_state ten_camera_TF
        [(marker_ahead, 0)]).1.stepper.camera_Z_angle = 10
    ∧ (color_block software_config facing_ten_state ten_camera_TF
        [(marker_ahead, 0)]).1.serial = ⟨[], []⟩
    ∧ (color_block software_config facing_ten_state ten_camera_TF
        [(marker_ahead, 0)]).1.stepper.get_angle_deg = 0 := by
  have hcat := example_catalog_zero
  have hb : observed_bearing ten_camera_TF marker_ahead
      ((software_config : Config ℝ).get_marker_info 0).true_size = 10 := by
    rw [hcat.2.2.1]
    exact observed_bearing_ahead 0 0 10 (by norm_num) (by norm_num)
  have h := reference_marker_correction software_config facing_ten_state ten_camera_TF
    marker_ahead 0 rfl hcat.1 hcat.2.1
  rw [hb, hcat.2.2.2] at h
  refine ⟨⟨rfl, hcat.1, hcat.2.1⟩, ?_, ?_, ?_, ?_, ?_⟩
  · rw [h.1]; norm_num
  · rw [h.2.1]; norm_num [facing_ten_state]
  · rw [h.2.2.1]; rfl
  · rw [h.2.2.2.1]; rfl
  · rw [h.2.2.2.2]; norm_num [facing_ten_state, stepper_controller.get_angle_deg]

/-- Claim C3 as stated fails: from `facing_ten_state` (angle 10 degrees, correction 0; the
state of `facing_ten_state_reached`) the cycle `reference_marker_input`, in which the
reference marker 0 of reference bearing 0 is observed at bearing 10, leaves the
correction of the stepper controller at -10, not +10, and `get_angle_deg` then reads 0,
not the current angle plus 10; nothing is written to the link. -/
theorem stepper_correction_sign_counterexample :
    (facing_ten_state : LoopState ℝ).stepper.angle_correction = 0
    ∧ (facing_ten_state : LoopState ℝ).stepper.get_angle_deg = 10
    ∧ (example_catalog 0 : marker_info_t ℝ).side < 0
    ∧ (example_catalog 0 : marker_info_t ℝ).shift.z = 0
    ∧ observed_bearing ten_camera_TF marker_ahead (example_catalog 0 : marker_info_t ℝ).true_size
        = 10
    ∧ ∃ s1 ev, cycle software_config facing_ten_state reference_marker_input
          = CycleResult.next s1 ev
        ∧ s1.stepper.angle_correction = -10
        ∧ s1.stepper.angle_correction ≠ 10
        ∧ s1.stepper.get_angle_deg = 0
        ∧ s1.stepper.get_angle_deg ≠ (facing_ten_state : LoopState ℝ).stepper.get_angle_deg + 10
        ∧ s1.serial.tx = [] := by
  have hcat := example_catalog_zero
  have hb : observed_bearing ten_camera_TF marker_ahead
      ((software_config : Config ℝ).get_marker_info 0).true_size = 10 := by
    rw [hcat.2.2.1]
    exact observed_bearing_ahead 0 0 10 (by norm_num) (by norm_num)
  have hangle : (poll_block software_config (facing_ten_state : LoopState ℝ)
      (reference_marker_input : CycleInput ℝ).serial_in).stepper.get_angle_deg = 10 := by
    simp [poll_block, stepper_controller.serial_poll, stepper_controller.read_serial,
      read_serial_loop, software_config, facing_ten_state, reference_marker_input,
      stepper_controller.get_angle_deg]
  have hstart : (facing_ten_state : LoopState ℝ).stepper.get_angle_deg = 10 := by
    norm_num [facing_ten_state, stepper_controller.get_angle_deg]
  have hnet : check_network software_config (facing_ten_state : LoopState ℝ)
      (reference_marker_input : CycleInput ℝ).request
      (reference_marker_input : CycleInput ℝ).home_wait = some (facing_ten_state, []) := rfl
  have hcycle := cycle_next software_config facing_ten_state facing_ten_state []
    reference_marker_input hnet reference_marker_input_goes_on
  rw [hangle] at hcycle
  have hst := color_block_reference software_config
    { poll_block software_config (facing_ten_state : LoopState ℝ)
        (reference_marker_input : CycleInput ℝ).serial_in with
      framecount := (poll_block software_config (facing_ten_state : LoopState ℝ)
        (reference_marker_input : CycleInput ℝ).serial_in).framecount + 1 }
    ten_camera_TF marker_ahead 0 rfl hcat.1 hcat.2.1
  rw [hb, hcat.2.2.2] at hst
  have hfb := frame_block_stepper software_config
    { poll_block software_config (facing_ten_state : LoopState ℝ)
        (reference_marker_input : CycleInput ℝ).serial_in with
      framecount := (poll_block software_config (facing_ten_state : LoopState ℝ)
        (reference_marker_input : CycleInput ℝ).serial_in).framecount + 1 }
    ten_camera_TF reference_marker_input
  have hst2 : (frame_block software_config
      { poll_block software_config (facing_ten_state : LoopState ℝ)
          (reference_marker_input : CycleInput ℝ).serial_in with
        framecount := (poll_block software_config (facing_ten_state : LoopState ℝ)
          (reference_marker_input : CycleInput ℝ).serial_in).framecount + 1 }
      ten_camera_TF reference_marker_input).1.stepper = ⟨10, 0, -10⟩ := by
    rw [hfb.1]
    have hdet : (reference_marker_input : CycleInput ℝ).frames.detections
        = [(marker_ahead, 0)] := rfl
    rw [hdet, hst]
    simp [poll_block, stepper_controller.serial_poll, stepper_controller.read_serial,
      read_serial_loop, software_config, facing_ten_state, reference_marker_input]
  refine ⟨rfl, hstart, hcat.2.1, hcat.2.2.2, hb, _, _, hcycle, ?_, ?_, ?_, ?_, ?_⟩
  · exact congrArg stepper_controller.angle_correction hst2
  · intro h10
    have h : (-10 : ℝ) = 10 :=
      (congrArg stepper_controller.angle_correction hst2).symm.trans h10
    norm_num at h
  · have h : (10 : ℝ) + -10 = 0 := by norm_num
    exact (congrArg stepper_controller.get_angle_deg hst2).trans h
  · intro h20
    have h : (10 : ℝ) + -10 = 10 + 0 + 10 :=
      (congrArg stepper_controller.get_angle_deg hst2).symm.trans h20
    norm_num at h
  · exact congrArg SerialPort.tx hfb.2

end ConcreteMarker


/-! ## The poll of the serial link -/

section PollProofs

variable {R : Type} [LinearOrderedField R]

/-- Once a byte has been read the flag of `read_serial` stays set. -/
lemma read_serial_loop_flag (l : List Nat) (a : R) : (read_serial_loop l true a).1 = true := by
  induction l generalizing a with
  | nil => rfl
  | cons b l ih => exact ih _

/-- The flag of `read_serial` tells whether a byte was available. -/
lemma read_serial_loop_read (l : List Nat) (a : R) :
    (read_serial_loop l false a).1 = true ↔ l ≠ [] := by
  cases l with
  | nil => simp [read_serial_loop]
  | cons b l => simp [read_serial_loop, read_serial_loop_flag]

/-- The angle left by `read_serial` is the decoding of the last byte read. -/
lemma read_serial_loop_last (pre : List Nat) (b : Nat) (flag : Bool) (a : R) :
    read_serial_loop (pre ++ [b]) flag a
      = (true, ((b % 256 : Nat) : R) / stepper_angle_to_step + stepper_angle_zero) := by
  induction pre generalizing flag a with
  | nil => rfl
  | cons c pre ih => exact ih _ _

/-- Claim C11, amended: with the link connected `serial_poll` drains the link and returns
true exactly when at least one byte was pending, false when none was; after a read the
angle is the decoding `byte / (400/360) - 73` of the last byte, and without a read it is
unchanged. Without the link `serial_poll` reads nothing, changes nothing and returns
true. -/
theorem serial_poll_return_value (st : stepper_controller R) (port : SerialPort)
    (pre : List Nat) (b : Nat) (tx : List Nat) :
    ((st.serial_poll true port).1 = true ↔ port.rx ≠ [])
    ∧ (st.serial_poll true port).2.2 = { port with rx := [] }
    ∧ st.serial_poll true ⟨pre ++ [b], tx⟩
        = (true, { st with camera_Z_angle := ((b % 256 : Nat) : R) / (400 / 360) - 73 },
            ⟨[], tx⟩)
    ∧ st.serial_poll true ⟨[], tx⟩ = (false, st, ⟨[], tx⟩)
    ∧ st.serial_poll false port = (true, st, port) := by
  refine ⟨?_, ?_, ?_, ?_, ?_⟩
  · simp only [stepper_controller.serial_poll, if_true, stepper_controller.read_serial]
    exact read_serial_loop_read _ _
  · simp [stepper_controller.serial_poll, stepper_controller.read_serial]
  · simp only [stepper_controller.serial_poll, if_true, stepper_controller.read_serial,
      read_serial_loop_last, stepper_angle_to_step, stepper_angle_zero]
    simp [sub_eq_add_neg]
  · simp [stepper_controller.serial_poll, stepper_controller.read_serial, read_serial_loop]
  · simp [stepper_controller.serial_poll]

/-- Claim C11 as stated fails without the link: with `pan_stepper` false and nothing
pending, `serial_poll` returns true although no byte is read, and with a byte pending it
returns true and leaves the byte unread and the angle as it was. -/
theorem serial_poll_without_link_counterexample :
    ((software_idle_state : LoopState ℚ).stepper.serial_poll false ⟨[], []⟩).1 = true
    ∧ ((software_idle_state : LoopState ℚ).stepper.serial_poll false ⟨[], []⟩).2.2.rx = []
    ∧ ¬ (((software_idle_state : LoopState ℚ).stepper.serial_poll false ⟨[], []⟩).1 = true
          ↔ 0 < ([] : List Nat).length
              - ((software_idle_state : LoopState ℚ).stepper.serial_poll false
                  ⟨[], []⟩).2.2.rx.length)
    ∧ ((software_idle_state : LoopState ℚ).stepper.serial_poll false ⟨[100], []⟩).1 = true
    ∧ ((software_idle_state : LoopState ℚ).stepper.serial_poll false ⟨[100], []⟩).2.2.rx
        = [100]
    ∧ ((software_idle_state : LoopState ℚ).stepper.serial_poll false
        ⟨[100], []⟩).2.1.camera_Z_angle = 0 := by
  simp [stepper_controller.serial_poll, software_idle_state]

end PollProofs

/-! ## The wait of the `H` request and the dispatch letter by letter -/

section DispatchProofs

variable {R : Type} [LinearOrderedField R]

/-- Without the link the wait of the `H` request ends at its first poll. -/
lemma wait_for_home_without_link (home_wait : List (List Nat)) (st : stepper_controller R)
    (port : SerialPort) : ∃ r, wait_for_home false home_wait st port = some r := by
  cases home_wait with
  | nil => exact ⟨(st, port), by simp [wait_for_home, stepper_controller.serial_poll]⟩
  | cons c rest =>
    exact ⟨(st, { port with rx := port.rx ++ c }), by
      simp [wait_for_home, stepper_controller.serial_poll]⟩

/-- With the link the wait of the `H` request ends as soon as a byte is there: one that
was pending, or one that arrives before a later poll. -/
lemma wait_for_home_with_link (home_wait : List (List Nat)) :
    ∀ (st : stepper_controller R) (port : SerialPort),
      (port.rx ≠ [] ∨ ∃ c ∈ home_wait, c ≠ []) →
      ∃ r, wait_for_home true home_wait st port = some r := by
  induction home_wait with
  | nil =>
    intro st port h
    have hrx : port.rx ≠ [] := by
      rcases h with h | ⟨c, hc, _⟩
      · exact h
      · simp at hc
    have hread := (read_serial_loop_read port.rx st.camera_Z_angle).mpr hrx
    apply Option.isSome_iff_exists.mp
    simp only [wait_for_home, stepper_controller.serial_poll, if_true,
      stepper_controller.read_serial, hread]
    rfl
  | cons c rest ih =>
    intro st port h
    by_cases hne : port.rx ++ c ≠ []
    · have hread := (read_serial_loop_read (port.rx ++ c) st.camera_Z_angle).mpr hne
      apply Option.isSome_iff_exists.mp
      simp only [wait_for_home, stepper_controller.serial_poll, if_true,
        stepper_controller.read_serial, hread]
      rfl
    · have hnone : ¬ (read_serial_loop (port.rx ++ c) false st.camera_Z_angle).1 = true :=
        fun hr => hne ((read_serial_loop_read _ _).mp hr)
      simp only [ne_eq, not_not, List.append_eq_nil] at hne
      have hlater : ∃ c2 ∈ rest, c2 ≠ [] := by
        rcases h with h | ⟨c2, hc2, hc2ne⟩
        · exact absurd hne.1 h
        · rcases List.mem_cons.mp hc2 with h2 | h2
          · rw [h2] at hc2ne
            exact absurd hne.2 hc2ne
          · exact ⟨c2, h2, hc2ne⟩
      obtain ⟨r, hr⟩ := ih
        (st.serial_poll true { port with rx := port.rx ++ c }).2.1
        (st.serial_poll true { port with rx := port.rx ++ c }).2.2 (Or.inr hlater)
      refine ⟨r, ?_⟩
      rw [wait_for_home]
      have hflag : (st.serial_poll true { port with rx := port.rx ++ c }).1 = false := by
        simp only [stepper_controller.serial_poll, if_true, stepper_controller.read_serial]
        exact Bool.eq_false_iff.mpr hnone
      simp only [hflag, Bool.false_eq_true, if_false]
      exact hr

end DispatchProofs

section ArmingProofs

/-- Truncation leaves an integral value as it is. -/
lemma trunc_intCast {R : Type} [LinearOrderedField R] [FloorRing R] (n : Int) :
    trunc (n : R) = n := by
  unfold trunc
  split_ifs <;> simp

/-- The conversion to `int` leaves an integral value of the 32-bit range as it is. -/
lemma float_to_int_intCast {R : Type} [LinearOrderedField R] [FloorRing R] (n : Int)
    (hlo : -2147483648 ≤ n) (hhi : n ≤ 2147483647) : float_to_int (n : R) = n := by
  unfold float_to_int
  rw [trunc_intCast, if_pos]
  unfold INT_MIN INT_MAX
  exact ⟨hlo, hhi⟩

/-- Claim C12, amended: a request whose letter is `T` or `t` performs the seek to its angle
`a` (with the stepper connected one byte is written, at most 250, which is the step count
`(a - angle_correction + 73) * 400/360` truncated and clamped into `[0,250]` whenever the
truncation fits an `int`, and the controller stays as it was; without the stepper the link
is untouched and the angle read with `get_angle_deg` becomes `a`), stores as the scan
target the angle converted to `int`, which for an angle of the `int` range is the angle
truncated toward zero and so the angle itself only when it is integral, clears the grid,
sets `obstacle_scan` to 18 and sends nothing while it is handled, and no response is sent
in the cycle that handles it; `P` seeks and sends one empty response, `O` requests the
shutdown and sends one empty response, `H`, once the stepper has confirmed the homing (or
at once without the link), sends one empty response, and an unknown letter sends one empty
response; none of these four changes `obstacle_scan`, the scan target or the grid. -/
theorem scan_command_arming (cfg : Config ℝ) (s : LoopState ℝ)
    (cmd : aurora_beacon_command ℝ) (home_wait : List (List Nat)) :
    (cmd.letter.toUpper = 'T' →
      handle_request cfg s cmd home_wait
          = some ({ s with
              stepper := (s.stepper.absolute_seek cfg.pan_stepper s.serial cmd.angle).1,
              serial := (s.stepper.absolute_seek cfg.pan_stepper s.serial cmd.angle).2,
              obstacle_scan_target := float_to_int cmd.angle,
              obstacles := ⟨[]⟩,
              obstacle_scan := 18 }, [])
        ∧ (cfg.pan_stepper = true →
            (s.stepper.absolute_seek cfg.pan_stepper s.serial cmd.angle).1 = s.stepper
            ∧ (s.stepper.absolute_seek cfg.pan_stepper s.serial cmd.angle).2.rx = s.serial.rx
            ∧ ∃ b : Nat,
                (s.stepper.absolute_seek cfg.pan_stepper s.serial cmd.angle).2.tx
                  = s.serial.tx ++ [b]
                ∧ b ≤ 250
                ∧ (-2147483649 < (cmd.angle - s.stepper.angle_correction + 73) * (400 / 360) →
                    (cmd.angle - s.stepper.angle_correction + 73) * (400 / 360) < 2147483648 →
                    (b : Int) = max 0 (min 250
                      (trunc ((cmd.angle - s.stepper.angle_correction + 73) * (400 / 360))))))
        ∧ (cfg.pan_stepper = false →
            (s.stepper.absolute_seek cfg.pan_stepper s.serial cmd.angle).2 = s.serial
            ∧ (s.stepper.absolute_seek cfg.pan_stepper s.serial cmd.angle).1.get_angle_deg
                = cmd.angle
            ∧ (s.stepper.absolute_seek cfg.pan_stepper s.serial cmd.angle).1.angle_correction
                = s.stepper.angle_correction)
        ∧ (-2147483649 < cmd.angle → cmd.angle < 2147483648 →
            float_to_int cmd.angle = trunc cmd.angle)
        ∧ |cmd.angle - (trunc cmd.angle : ℝ)| < 1
        ∧ |(trunc cmd.angle : ℝ)| ≤ |cmd.angle|
        ∧ |(cmd.angle - s.stepper.angle_correction + 73) * (400 / 360)
            - (trunc ((cmd.angle - s.stepper.angle_correction + 73) * (400 / 360)) : ℝ)| < 1
        ∧ |(trunc ((cmd.angle - s.stepper.angle_correction + 73) * (400 / 360)) : ℝ)|
            ≤ |(cmd.angle - s.stepper.angle_correction + 73) * (400 / 360)|
        ∧ (∀ n : Int, cmd.angle = n → -2147483648 ≤ n → n ≤ 2147483647 →
            float_to_int cmd.angle = n)
        ∧ ∀ inp : CycleInput ℝ, inp.request = some cmd → inp.home_wait = home_wait →
            loop_goes_on cfg inp →
            ∃ s1 ev, cycle cfg s inp = CycleResult.next s1 ev
              ∧ ev.countP Event.is_response = 0 ∧ s1.obstacle_scan = 17)
    ∧ (cmd.letter.toUpper = 'P' →
        handle_request cfg s cmd home_wait
          = some ({ s with
              stepper := (s.stepper.absolute_seek cfg.pan_stepper s.serial cmd.angle).1,
              serial := (s.stepper.absolute_seek cfg.pan_stepper s.serial cmd.angle).2 },
              [Event.response_empty]))
    ∧ (cmd.letter.toUpper = 'O' →
        handle_request cfg s cmd home_wait
          = some (s, [Event.shutdown, Event.response_empty]))
    ∧ (cmd.letter.toUpper = 'H' →
        (cfg.pan_stepper = false ∨ s.serial.rx ≠ [] ∨ ∃ c ∈ home_wait, c ≠ []) →
        ∃ s1, handle_request cfg s cmd home_wait = some (s1, [Event.response_empty])
          ∧ s1.obstacle_scan = s.obstacle_scan
          ∧ s1.obstacle_scan_target = s.obstacle_scan_target
          ∧ s1.obstacles = s.obstacles
          ∧ s1.stepper.angle_correction = 0)
    ∧ (cmd.letter.toUpper ≠ 'P' → cmd.letter.toUpper ≠ 'O' → cmd.letter.toUpper ≠ 'H' →
        cmd.letter.toUpper ≠ 'T' →
        handle_request cfg s cmd home_wait = some (s, [Event.response_empty])) := by
  refine ⟨?_, ?_, ?_, ?_, ?_⟩
  · intro hT
    have hreq : handle_request cfg s cmd home_wait
          = some ({ s with
              stepper := (s.stepper.absolute_seek cfg.pan_stepper s.serial cmd.angle).1,
              serial := (s.stepper.absolute_seek cfg.pan_stepper s.serial cmd.angle).2,
              obstacle_scan_target := float_to_int cmd.angle,
              obstacles := ⟨[]⟩,
              obstacle_scan := 18 }, []) := by
      simp [handle_request, hT, obstacle_grid.clear]
    have hsub : cmd.angle - s.stepper.angle_correction - stepper_angle_zero
        = cmd.angle - s.stepper.angle_correction + 73 := by
      unfold stepper_angle_zero; ring
    have hspec := trunc_spec ((cmd.angle - s.stepper.angle_correction + 73) * (400 / 360))
    refine ⟨hreq, ?_, ?_, float_to_int_of_fits cmd.angle, (trunc_spec cmd.angle).1,
      (trunc_spec cmd.angle).2, hspec.1, hspec.2, ?_, ?_⟩
    · intro hpan
      have hseek : s.stepper.absolute_seek cfg.pan_stepper s.serial cmd.angle
          = (s.stepper, seek_steps s.serial (float_to_int
              ((cmd.angle - s.stepper.angle_correction + 73) * (400 / 360)))) := by
        simp only [stepper_controller.absolute_seek, hpan, if_true, hsub,
          stepper_angle_to_step]
      have htx := seek_steps_tx s.serial (float_to_int
        ((cmd.angle - s.stepper.angle_correction + 73) * (400 / 360)))
      rw [hseek]
      refine ⟨rfl, htx.2, _, htx.1, by omega, ?_⟩
      intro hlo hhi
      rw [float_to_int_of_fits _ hlo hhi]
      omega
    · intro hpan
      simp [stepper_controller.absolute_seek, hpan, stepper_controller.get_angle_deg]
    · intro n hn hlo hhi
      rw [hn]
      exact float_to_int_intCast n hlo hhi
    · intro inp hinp hhw hgo
      have hnet : check_network cfg s inp.request inp.home_wait
          = handle_request cfg s cmd home_wait := by
        rw [hinp, hhw]
        rfl
      rw [hreq] at hnet
      obtain ⟨s1, ev, hcycle, hs1, _, hr, _⟩ := cycle_scan cfg s _ [] inp hnet hgo
      refine ⟨s1, [] ++ ev, hcycle, ?_, ?_⟩
      · rw [List.nil_append, hr]
        simp
      · rw [hs1]
        simp
  · intro hP
    simp only [handle_request, hP, if_true]
  · intro hO
    simp [handle_request, hO]
  · intro hH hconf
    have hwait : ∃ r, wait_for_home cfg.pan_stepper home_wait
        (s.stepper.setup_seek cfg.pan_stepper s.serial).1
        (s.stepper.setup_seek cfg.pan_stepper s.serial).2 = some r := by
      cases hpan : cfg.pan_stepper with
      | false => exact wait_for_home_without_link _ _ _
      | true =>
        apply wait_for_home_with_link
        rcases hconf with h | h | h
        · rw [hpan] at h
          exact absurd h (by decide)
        · left
          simpa [stepper_controller.setup_seek, SerialPort.write] using h
        · exact Or.inr h
    obtain ⟨⟨st, port⟩, hr⟩ := hwait
    have hreq : handle_request cfg s cmd home_wait
        = some ({ s with
            stepper := (({ st with angle_correction := 0 } :
              stepper_controller ℝ).absolute_seek cfg.pan_stepper port cmd.angle).1,
            serial := (({ st with angle_correction := 0 } :
              stepper_controller ℝ).absolute_seek cfg.pan_stepper port cmd.angle).2 },
            [Event.response_empty]) := by
      simp [handle_request, hH, hr]
    refine ⟨_, hreq, rfl, rfl, rfl, ?_⟩
    cases hpan : cfg.pan_stepper <;> simp [stepper_controller.absolute_seek]
  · intro hP hO hH hT
    simp [handle_request, hP, hO, hH, hT]

end ArmingProofs

/-! ## Unknown markers, and the seek followed by the report of the stepper -/

section UnknownMarkerProofs

/-- Claim C13, amended: `found_marker` discards a sighting exactly when the size of its
catalog entry is negative, and then leaves the marker set and the correction of the
watcher as they were; a sighting whose size is not negative, 0 included, is processed:
as a reference marker (`side < 0`) it sets the correction of the watcher, otherwise it
is added to the marker set. -/
theorem unknown_marker_rejected (get_marker_info : Int → marker_info_t ℝ)
    (camera_TF : camera_transform ℝ) (p : marker_watcher_print ℝ) (m : Nat → Nat → ℝ)
    (ID : Int) :
    ((get_marker_info ID).true_size < 0 →
      p.found_marker get_marker_info camera_TF m ID = p)
    ∧ (¬ (get_marker_info ID).true_size < 0 → (get_marker_info ID).side < 0 →
        (p.found_marker get_marker_info camera_TF m ID).markers = p.markers
        ∧ (p.found_marker get_marker_info camera_TF m ID).angle_correction
            = observed_bearing camera_TF m (get_marker_info ID).true_size
                - (get_marker_info ID).shift.z)
    ∧ (¬ (get_marker_info ID).true_size < 0 → ¬ (get_marker_info ID).side < 0 →
        (p.found_marker get_marker_info camera_TF m ID).angle_correction = p.angle_correction
        ∧ (p.found_marker get_marker_info camera_TF m ID).markers.beacon = p.markers.beacon
        ∧ ∃ sighting : marker_sighting ℝ,
            (p.found_marker get_marker_info camera_TF m ID).markers.added
              = sighting :: p.markers.added
            ∧ sighting.id = (get_marker_info ID).id
            ∧ sighting.pos = camera_TF.world_from_camera
                ⟨m 0 3 * (get_marker_info ID).true_size, m 1 3 * (get_marker_info ID).true_size,
                  m 2 3 * (get_marker_info ID).true_size⟩) := by
  refine ⟨?_, ?_, ?_⟩
  · intro h
    simp only [marker_watcher_print.found_marker, h, if_true]
  · intro h hs
    rw [found_marker_reference get_marker_info camera_TF p m ID h hs]
    exact ⟨rfl, rfl⟩
  · intro h hs
    simp only [marker_watcher_print.found_marker, h, hs, if_false, robot_markers_all.add]
    exact ⟨trivial, trivial, _, rfl, rfl, rfl⟩

/-- Claim C13 as stated fails at the size 0: the sighting of marker 0 of
`zero_size_catalog`, whose size is 0 and so not greater than 0, is added to the marker
set, and the sighting of its marker 1, a reference marker of size 0 and reference
bearing 5, changes the correction of the watcher from 0 to -5. -/
theorem zero_size_marker_counterexample :
    ¬ (0 < (zero_size_catalog 0 : marker_info_t ℝ).true_size)
    ∧ (marker_watcher_print.ctor : marker_watcher_print ℝ).markers.added.length = 0
    ∧ ((marker_watcher_print.ctor : marker_watcher_print ℝ).found_marker zero_size_catalog
        ten_camera_TF marker_ahead 0).markers.added.length = 1
    ∧ ¬ (0 < (zero_size_catalog 1 : marker_info_t ℝ).true_size)
    ∧ (marker_watcher_print.ctor : marker_watcher_print ℝ).angle_correction = 0
    ∧ ((marker_watcher_print.ctor : marker_watcher_print ℝ).found_marker zero_size_catalog
        ten_camera_TF marker_ahead 1).angle_correction = -5 := by
  refine ⟨?_, rfl, ?_, ?_, rfl, ?_⟩
  · simp [zero_size_catalog]
  · simp [marker_watcher_print.found_marker, zero_size_catalog, robot_markers_all.add,
      marker_watcher_print.ctor]
  · simp [zero_size_catalog]
  · simp [marker_watcher_print.found_marker, zero_size_catalog, marker_watcher_print.ctor,
      camera_transform.world_from_camera, coord_rotator.rotate, vec3.sub, atan2]
    left
    exact Complex.arg_zero

end UnknownMarkerProofs

section QuantizationProofs

variable {R : Type} [LinearOrderedField R] [FloorRing R]

/-- Claim C16: with the stepper connected, when the step count `(d - c + 73) * 400/360` of
a seek to `d` under the correction `c` lies in `[0,250]` and the stepper reports back the
byte that `absolute_seek` wrote, the angle read with `get_angle_deg` after the poll lies
in `(d - 0.9, d]`, and so within 4 degrees of `d`. -/
theorem seek_report_quantization (st : stepper_controller R) (port : SerialPort) (d : R)
    (h0 : 0 ≤ (d - st.angle_correction + 73) * (400 / 360))
    (h1 : (d - st.angle_correction + 73) * (400 / 360) ≤ 250) :
    ∃ b : Nat, (st.absolute_seek true port d).2.tx = port.tx ++ [b]
      ∧ b ≤ 250
      ∧ ((st.absolute_seek true port d).1.serial_poll true
          { (st.absolute_seek true port d).2 with
            rx := (st.absolute_seek true port d).2.rx ++ [b] }).1 = true
      ∧ d - 9 / 10 < ((st.absolute_seek true port d).1.serial_poll true
          { (st.absolute_seek true port d).2 with
            rx := (st.absolute_seek true port d).2.rx ++ [b] }).2.1.get_angle_deg
      ∧ ((st.absolute_seek true port d).1.serial_poll true
          { (st.absolute_seek true port d).2 with
            rx := (st.absolute_seek true port d).2.rx ++ [b] }).2.1.get_angle_deg ≤ d
      ∧ |d - ((st.absolute_seek true port d).1.serial_poll true
          { (st.absolute_seek true port d).2 with
            rx := (st.absolute_seek true port d).2.rx ++ [b] }).2.1.get_angle_deg| ≤ 4 := by
  have hsub : d - st.angle_correction - stepper_angle_zero
      = d - st.angle_correction + 73 := by
    unfold stepper_angle_zero; ring
  set x : R := (d - st.angle_correction + 73) * (400 / 360) with hx
  have hfl0 : (0 : Int) ≤ Int.floor x := Int.floor_nonneg.mpr h0
  have hfl1 : Int.floor x ≤ 250 := by
    have h := Int.floor_le x
    have h2 : ((Int.floor x : Int) : R) ≤ ((250 : Int) : R) := by
      push_cast
      exact le_trans h h1
    exact_mod_cast h2
  have hstep : float_to_int x = Int.floor x := by
    rw [float_to_int_of_fits x (by linarith) (by linarith)]
    unfold trunc
    rw [if_pos h0]
  have hseek : st.absolute_seek true port d = (st, seek_steps port (Int.floor x)) := by
    simp only [stepper_controller.absolute_seek, if_true, hsub, stepper_angle_to_step,
      ← hx, hstep]
  have htx := seek_steps_tx port (Int.floor x)
  have hclamp : max 0 (min 250 (Int.floor x)) = Int.floor x := by
    rw [min_eq_right hfl1, max_eq_right hfl0]
  rw [hclamp] at htx
  have hb : (Int.floor x).toNat ≤ 250 := by omega
  have hmod : (Int.floor x).toNat % 256 = (Int.floor x).toNat := Nat.mod_eq_of_lt (by omega)
  have hcast : (((Int.floor x).toNat : Nat) : R) = ((Int.floor x : Int) : R) := by
    have h : (((Int.floor x).toNat : Nat) : Int) = Int.floor x := Int.toNat_of_nonneg hfl0
    exact_mod_cast congrArg (fun z : Int => (z : R)) h
  have hangle : ((st.absolute_seek true port d).1.serial_poll true
          { (st.absolute_seek true port d).2 with
            rx := (st.absolute_seek true port d).2.rx ++ [(Int.floor x).toNat] })
        = (true, { st with camera_Z_angle := ((Int.floor x : Int) : R) / (400 / 360) - 73 },
            { (st.absolute_seek true port d).2 with rx := [] }) := by
    rw [hseek]
    simp only [stepper_controller.serial_poll, if_true, stepper_controller.read_serial,
      read_serial_loop_last, hmod, hcast, stepper_angle_to_step, stepper_angle_zero]
    simp [sub_eq_add_neg]
  have hlo : ((Int.floor x : Int) : R) ≤ x := Int.floor_le x
  have hhi : x < ((Int.floor x : Int) : R) + 1 := Int.lt_floor_add_one x
  have hd : d = x * (9 / 10) - 73 + st.angle_correction := by
    rw [hx]; ring
  have hget : ((Int.floor x : Int) : R) / (400 / 360) - 73 + st.angle_correction
      = ((Int.floor x : Int) : R) * (9 / 10) - 73 + st.angle_correction := by
    ring
  refine ⟨(Int.floor x).toNat, ?_, hb, ?_, ?_, ?_, ?_⟩
  · rw [hseek]; exact htx.1
  · rw [hangle]
  · rw [hangle]
    simp only [stepper_controller.get_angle_deg]
    rw [hget, hd]
    linarith
  · rw [hangle]
    simp only [stepper_controller.get_angle_deg]
    rw [hget, hd]
    linarith
  · rw [hangle]
    simp only [stepper_controller.get_angle_deg]
    rw [hget, hd, abs_le]
    constructor <;> linarith

end QuantizationProofs

/-! ## The camera transform is a rigid motion -/

section RigidProofs

/-- The square of the length of the difference of two images under `world_from_camera`,
for rotators whose cached cosine and sine lie on the unit circle. -/
lemma world_from_camera_sub_sq (t : camera_transform ℝ)
    (htilt : t.camera_tilt.c ^ 2 + t.camera_tilt.s ^ 2 = 1)
    (hpan : t.Z_rotation.c ^ 2 + t.Z_rotation.s ^ 2 = 1) (p q : vec3 ℝ) :
    ((t.world_from_camera p).sub (t.world_from_camera q)).x ^ 2
      + ((t.world_from_camera p).sub (t.world_from_camera q)).y ^ 2
      + ((t.world_from_camera p).sub (t.world_from_camera q)).z ^ 2
    = (p.sub q).x ^ 2 + (p.sub q).y ^ 2 + (p.sub q).z ^ 2 := by
  simp only [camera_transform.world_from_camera, coord_rotator.rotate, vec3.sub]
  linear_combination
    ((p.z - q.z) ^ 2
      + ((-(p.x - q.x)) * t.camera_tilt.c - (-(p.y - q.y)) * t.camera_tilt.s) ^ 2) * hpan
    + ((p.x - q.x) ^ 2 + (p.y - q.y) ^ 2) * htilt

/-- The rotators built by the constructor lie on the unit circle. -/
lemma coord_rotator_ctor_unit (angle_degs : ℝ) :
    (coord_rotator.ctor angle_degs).c ^ 2 + (coord_rotator.ctor angle_degs).s ^ 2 = 1 := by
  simp only [coord_rotator.ctor]
  exact Real.cos_sq_add_sin_sq _

/-- Claim C17: for every pan angle `world_from_camera` keeps the distance between any two
camera-frame points; a marker axis `world_from_camera(v + a) - world_from_camera(v)`
therefore has the length of `a`, and it is the same vector for every `v` and for every
camera origin. -/
theorem world_from_camera_rigid (field_x_beacon field_y_beacon t : ℝ)
    (p q v a v2 origin : vec3 ℝ) :
    (((camera_transform.ctor field_x_beacon field_y_beacon t).world_from_camera p).sub
        ((camera_transform.ctor field_x_beacon field_y_beacon t).world_from_camera q)).length
      = (p.sub q).length
    ∧ (((camera_transform.ctor field_x_beacon field_y_beacon t).world_from_camera
          (v.add a)).sub
        ((camera_transform.ctor field_x_beacon field_y_beacon t).world_from_camera v)).length
      = a.length
    ∧ ((camera_transform.ctor field_x_beacon field_y_beacon t).world_from_camera (v.add a)).sub
        ((camera_transform.ctor field_x_beacon field_y_beacon t).world_from_camera v)
      = (({ camera_transform.ctor field_x_beacon field_y_beacon t with camera := origin } :
            camera_transform ℝ).world_from_camera (v2.add a)).sub
          (({ camera_transform.ctor field_x_beacon field_y_beacon t with camera := origin } :
            camera_transform ℝ).world_from_camera v2) := by
  have htilt : (camera_transform.ctor field_x_beacon field_y_beacon t).camera_tilt.c ^ 2
      + (camera_transform.ctor field_x_beacon field_y_beacon t).camera_tilt.s ^ 2 = 1 :=
    coord_rotator_ctor_unit (-20)
  have hpan : (camera_transform.ctor field_x_beacon field_y_beacon t).Z_rotation.c ^ 2
      + (camera_transform.ctor field_x_beacon field_y_beacon t).Z_rotation.s ^ 2 = 1 :=
    coord_rotator_ctor_unit t
  refine ⟨?_, ?_, ?_⟩
  · simp only [vec3.length]
    rw [world_from_camera_sub_sq _ htilt hpan p q]
  · simp only [vec3.length]
    rw [world_from_camera_sub_sq _ htilt hpan (v.add a) v]
    simp [vec3.sub, vec3.add]
  · simp only [camera_transform.world_from_camera, coord_rotator.rotate, vec3.sub, vec3.add,
      vec3.mk.injEq]
    refine ⟨?_, ?_, ?_⟩ <;> ring

end RigidProofs

/-! ## The names of the states -/

section StateNameProofs

/-- The table has the declared length. -/
lemma state_table_length (state_last : Nat) (h : 24 ≤ state_last) :
    (state_table state_last).length = state_last + 1 := by
  simp only [state_table, List.length_append, List.length_map, List.length_replicate]
  have : state_names.length = 25 := rfl
  omega

/-- No name occurs twice among the initializers, and none is the name returned for an
invalid state. -/
lemma state_names_nodup : state_names.Nodup ∧ "unknown_invalid" ∉ state_names := by
  decide

/-- Claim C18: `state_to_string` returns for every value: `unknown_invalid`, without
indexing the table, for a state below 0 or from `state_last` on; for a state in
`[0, state_last)` the index lies within the `state_last+1` entries of the table. When the
final entry of the table is the initializer `last`, that is for `state_last = 24`, every
state in `[0, state_last)` gets a name that is not null, differs from `unknown_invalid`
and is its initializer, two such states with the same name are equal, the entry 0 is
`STOP` and the final entry is `last`. -/
theorem state_to_string_total (state_last : Nat) (state : Int) :
    ((state < 0 ∨ (state_last : Int) ≤ state) →
        state_to_string state_last state = some "unknown_invalid")
    ∧ (0 ≤ state → state < state_last → 24 ≤ state_last →
        state.toNat < (state_table state_last).length
        ∧ (state_table state_last).length = state_last + 1
        ∧ state_to_string state_last state = (state_table state_last).getD state.toNat none)
    ∧ (state_last = 24 → 0 ≤ state → state < state_last →
        ∃ name, state_to_string state_last state = some name
          ∧ name ≠ "unknown_invalid"
          ∧ state_names[state.toNat]? = some name)
    ∧ (state_last = 24 → ∀ other : Int, 0 ≤ state → state < state_last → 0 ≤ other →
        other < state_last →
        state_to_string state_last state = state_to_string state_last other → state = other)
    ∧ (state_last = 24 →
        (state_table state_last)[0]? = some (some "STOP")
        ∧ (state_table state_last)[state_last]? = some (some "last")
        ∧ (state_table state_last).length = state_last + 1) := by
  have hlen : state_names.length = 25 := rfl
  have hin : ∀ st : Int, 0 ≤ st → st < 24 →
      state_to_string 24 st = state_names[st.toNat]? := by
    intro st h0 h1
    have hlt : st.toNat < state_names.length := by omega
    have hguard : ¬ (st < 0 ∨ st ≥ ((24 : Nat) : Int)) := by omega
    simp only [state_to_string, hguard, if_false, state_table, List.getD_eq_getElem?_getD,
      List.getElem?_append_left (by simpa using hlt : st.toNat < (state_names.map some).length),
      List.getElem?_map, List.getElem?_eq_getElem hlt]
    rfl
  refine ⟨?_, ?_, ?_, ?_, ?_⟩
  · intro h
    have hguard : state < 0 ∨ state ≥ (state_last : Int) := h
    simp only [state_to_string, hguard, if_true]
  · intro h0 h1 h24
    have hl := state_table_length state_last h24
    have hguard : ¬ (state < 0 ∨ state ≥ (state_last : Int)) := by omega
    refine ⟨by omega, hl, ?_⟩
    simp only [state_to_string, hguard, if_false]
  · intro h24 h0 h1
    subst h24
    have hlt : state.toNat < state_names.length := by omega
    refine ⟨state_names[state.toNat], ?_, ?_, ?_⟩
    · rw [hin state h0 (by omega), List.getElem?_eq_getElem hlt]
    · intro heq
      exact state_names_nodup.2 (heq ▸ List.getElem_mem _)
    · exact List.getElem?_eq_getElem hlt
  · intro h24 other h0 h1 h2 h3 heq
    subst h24
    rw [hin state h0 (by omega), hin other h2 (by omega)] at heq
    have hlt1 : state.toNat < state_names.length := by omega
    have hlt2 : other.toNat < state_names.length := by omega
    rw [List.getElem?_eq_getElem hlt1, List.getElem?_eq_getElem hlt2] at heq
    have hidx := (List.Nodup.getElem_inj_iff state_names_nodup.1).mp (Option.some.inj heq)
    omega
  · intro h24
    subst h24
    exact ⟨rfl, rfl, rfl⟩

end StateNameProofs

/-! ## The confidence threshold of the display -/

section DisplayProofs

variable {R : Type} [LinearOrderedField R]

/-- A pose that is drawn puts out at least the start of its triangle. -/
lemma robot_display_pose_eq_nil (pose : robot_pose R) :
    robot_display_pose pose = [] ↔ pose.confidence < 1 / 10 := by
  unfold robot_display_pose
  split_ifs with h
  · exact ⟨fun _ => h, fun _ => rfl⟩
  · exact ⟨fun hnil => absurd hnil (by simp), fun hlt => absurd hlt h⟩

/-- The display of a pose never prints the line of a marker. -/
lemma printf_marker_not_mem_pose (i : Nat) (pose : robot_pose R) :
    Shown.printf_marker i ∉ robot_display_pose pose := by
  unfold robot_display_pose
  split_ifs <;> simp

/-- The line of the marker `i` is printed by the loop over the slots, started at the slot
`first`, exactly when the slot `i` exists and its confidence is not below 0.1. -/
lemma printf_marker_mem_slots (i : Nat) (slots : List (robot_pose R)) :
    ∀ first : Nat, Shown.printf_marker i ∈ display_marker_slots first slots
      ↔ first ≤ i ∧ ∃ pose, slots[i - first]? = some pose ∧ ¬ pose.confidence < 1 / 10 := by
  induction slots with
  | nil =>
    intro first
    simp [display_marker_slots]
  | cons pose later ih =>
    intro first
    rw [display_marker_slots, List.mem_append, ih (first + 1)]
    have hslot : Shown.printf_marker i ∈ display_marker_slot first pose
        ↔ (i = first ∧ ¬ pose.confidence < 1 / 10) := by
      unfold display_marker_slot
      split_ifs with h
      · simp only [List.not_mem_nil, false_iff, not_and, not_not]
        exact fun _ => h
      · have hp := printf_marker_not_mem_pose i pose
        simp only [List.cons_append, List.nil_append, List.mem_cons, Shown.printf_marker.injEq,
          hp, or_false, h, not_false_eq_true, and_true]
        simp
    rw [hslot]
    constructor
    · rintro (⟨h1, h2⟩ | ⟨h1, q, h2, h3⟩)
      · subst h1
        exact ⟨le_refl _, pose, by simp, h2⟩
      · refine ⟨by omega, q, ?_, h3⟩
        have hidx : i - first = (i - (first + 1)) + 1 := by omega
        rw [hidx, List.getElem?_cons_succ]
        exact h2
    · rintro ⟨h1, q, h2, h3⟩
      by_cases heq : i = first
      · left
        subst heq
        simp only [Nat.sub_self, List.getElem?_cons_zero, Option.some.injEq] at h2
        subst h2
        exact ⟨rfl, h3⟩
      · right
        refine ⟨by omega, q, ?_, h3⟩
        have hidx : i - first = (i - (first + 1)) + 1 := by omega
        rw [hidx, List.getElem?_cons_succ] at h2
        exact h2

end DisplayProofs

section DisplayThreshold

/-- Claim C14, amended: `robot_display_pose` draws nothing for a pose whose confidence is
below 0.1 and draws the triangle of every pose whose confidence is at least 0.1, the
value 0.1 included; in `robot_display_markers` a marker slot whose confidence is below
0.1 is neither printed nor drawn, a slot whose confidence is at least 0.1 is printed and
drawn, and the line of the marker `i` is printed exactly when the slot `i` has a
confidence of at least 0.1. -/
theorem display_confidence_threshold (field_x_beacon field_y_beacon : ℝ)
    (m : robot_markers_shown ℝ) (pose : robot_pose ℝ) (i : Nat) :
    (robot_display_pose pose = [] ↔ pose.confidence < 1 / 10)
    ∧ (1 / 10 ≤ pose.confidence →
        robot_display_pose pose
          = [Shown.glBegin_triangle_fan,
             Shown.glColor3f (1 / 2) (1 / 2) (1 / 2),
             Shown.glVertex2fv pose.pos.x pose.pos.y,
             Shown.glColor3f 1 0 0,
             Shown.glVertex2fv (pose.pos.x + pose.rgt.x * 20) (pose.pos.y + pose.rgt.y * 20),
             Shown.glColor3f 0 1 0,
             Shown.glVertex2fv (pose.pos.x + pose.fwd.x * 20) (pose.pos.y + pose.fwd.y * 20),
             Shown.glEnd])
    ∧ (pose.confidence < 1 / 10 → display_marker_slot i pose = [])
    ∧ (1 / 10 ≤ pose.confidence →
        display_marker_slot i pose
          = [Shown.printf_marker i, Shown.pose_print pose] ++ robot_display_pose pose)
    ∧ (Shown.printf_marker i ∈ robot_display_markers field_x_beacon field_y_beacon m
        ↔ ∃ slot, m.markers[i]? = some slot ∧ 1 / 10 ≤ slot.confidence) := by
  refine ⟨robot_display_pose_eq_nil pose, ?_, ?_, ?_, ?_⟩
  · intro h
    simp only [robot_display_pose, if_neg (not_lt.mpr h), vec3.add, vec3.scale]
  · intro h
    simp only [display_marker_slot, if_pos h]
  · intro h
    simp only [display_marker_slot, if_neg (not_lt.mpr h)]
  · have hpose := printf_marker_not_mem_pose i m.pose
    have hslots := printf_marker_mem_slots i m.markers 0
    simp only [robot_display_markers, display_beacon_line, List.mem_append, hpose, hslots,
      List.mem_cons, List.mem_singleton, false_or, or_false, Nat.sub_zero, Nat.zero_le,
      true_and, not_lt]
    simp

/-- Claim C14 as stated fails at the confidence 0.1 itself: the pose is drawn, and as the
slot 1 of `threshold_markers` it is printed and drawn, while the slot 0 of confidence
0.05 is not; the fused pose of `threshold_markers`, of confidence 0, is printed all the
same. -/
theorem display_threshold_counterexample :
    (pose_with_confidence (1 / 10) : robot_pose ℝ).confidence ≤ 1 / 10
    ∧ robot_display_pose (pose_with_confidence (1 / 10) : robot_pose ℝ) ≠ []
    ∧ Shown.printf_marker 1 ∈ robot_display_markers 0 0 threshold_markers
    ∧ Shown.pose_print (pose_with_confidence (1 / 10)) ∈
        robot_display_markers 0 0 threshold_markers
    ∧ Shown.printf_marker 0 ∉ robot_display_markers 0 0 threshold_markers
    ∧ (threshold_markers : robot_markers_shown ℝ).pose.confidence ≤ 1 / 10
    ∧ Shown.pose_print (threshold_markers : robot_markers_shown ℝ).pose ∈
        robot_display_markers 0 0 threshold_markers := by
  refine ⟨le_refl _, ?_, ?_, ?_, ?_, ?_, ?_⟩
  · rw [ne_eq, robot_display_pose_eq_nil]
    simp [pose_with_confidence]
  · simp [robot_display_markers, threshold_markers, display_marker_slots,
      display_marker_slot, pose_with_confidence]
  · simp [robot_display_markers, threshold_markers, display_marker_slots,
      display_marker_slot, pose_with_confidence]
  · simp [robot_display_markers, threshold_markers, display_marker_slots,
      display_marker_slot, pose_with_confidence, robot_display_pose, display_beacon_line]
    norm_num
  · simp [threshold_markers, pose_with_confidence]
  · simp [robot_display_markers, threshold_markers]

end DisplayThreshold

/-! ## The correction of the stepper angle settles in one step -/

section ConvergenceProofs

/-- Turning a point other than the origin by the angle `a` adds `a` to its `atan2`, up to
whole turns. -/
lemma atan2_rotate (ux uy a : ℝ) (h : ux ≠ 0 ∨ uy ≠ 0) :
    ∃ k : ℤ, atan2 (ux * Real.sin a + uy * Real.cos a) (ux * Real.cos a - uy * Real.sin a)
      = atan2 uy ux + a + 2 * Real.pi * k := by
  unfold atan2
  have hz : (⟨ux, uy⟩ : ℂ) ≠ 0 := by
    intro h0
    have hre := congrArg Complex.re h0
    have him := congrArg Complex.im h0
    simp only [Complex.zero_re, Complex.zero_im] at hre him
    rcases h with h | h
    · exact h hre
    · exact h him
  have hw : (Complex.cos a + Complex.sin a * Complex.I) ≠ 0 := by
    rw [← Complex.exp_mul_I]
    exact Complex.exp_ne_zero _
  have hprod : (⟨ux * Real.cos a - uy * Real.sin a, ux * Real.sin a + uy * Real.cos a⟩ : ℂ)
      = (⟨ux, uy⟩ : ℂ) * (Complex.cos a + Complex.sin a * Complex.I) := by
    apply Complex.ext
    · simp [Complex.cos_ofReal_re, Complex.sin_ofReal_re, Complex.cos_ofReal_im,
        Complex.sin_ofReal_im]
    · simp [Complex.cos_ofReal_re, Complex.sin_ofReal_re, Complex.cos_ofReal_im,
        Complex.sin_ofReal_im]
  have hwarg : (Complex.arg (Complex.cos a + Complex.sin a * Complex.I) : Real.Angle)
      = (a : Real.Angle) := by
    have h1 := Complex.arg_cos_add_sin_mul_I_coe_angle (a : Real.Angle)
    rw [Real.Angle.cos_coe, Real.Angle.sin_coe] at h1
    simpa using h1
  have hsum := Complex.arg_mul_coe_angle hz hw
  rw [hwarg, ← Real.Angle.coe_add, Real.Angle.angle_eq_iff_two_pi_dvd_sub] at hsum
  obtain ⟨k, hk⟩ := hsum
  refine ⟨k, ?_⟩
  rw [hprod]
  linarith

/-- The bearing in terms of the part of the world offset that the pan angle turns. -/
lemma observed_bearing_eq (field_x_beacon field_y_beacon θ : ℝ) (m : Nat → Nat → ℝ)
    (scale : ℝ) :
    observed_bearing (camera_transform.ctor field_x_beacon field_y_beacon θ) m scale
      = atan2
          (m 2 3 * scale * Real.sin (θ * Real.pi / 180)
            + (-(m 0 3 * scale) * Real.cos (-20 * Real.pi / 180)
                - -(m 1 3 * scale) * Real.sin (-20 * Real.pi / 180))
              * Real.cos (θ * Real.pi / 180))
          (m 2 3 * scale * Real.cos (θ * Real.pi / 180)
            - (-(m 0 3 * scale) * Real.cos (-20 * Real.pi / 180)
                - -(m 1 3 * scale) * Real.sin (-20 * Real.pi / 180))
              * Real.sin (θ * Real.pi / 180))
        * (180 / Real.pi) := by
  simp only [observed_bearing, camera_transform.ctor, camera_transform.world_from_camera,
    coord_rotator.ctor, coord_rotator.rotate, vec3.sub]
  congr 2 <;> ring

/-- The bearing observed under the pan angle `θ` is the one observed under the pan angle 0
plus `θ`, up to whole turns, for a marker in front of the camera. -/
lemma observed_bearing_pan (field_x_beacon field_y_beacon θ : ℝ) (m : Nat → Nat → ℝ)
    (scale : ℝ) (hfront : m 2 3 * scale ≠ 0) :
    ∃ k : ℤ,
      observed_bearing (camera_transform.ctor field_x_beacon field_y_beacon θ) m scale
        = observed_bearing (camera_transform.ctor field_x_beacon field_y_beacon 0) m scale
          + θ + 360 * k := by
  obtain ⟨k, hk⟩ := atan2_rotate (m 2 3 * scale)
    (-(m 0 3 * scale) * Real.cos (-20 * Real.pi / 180)
      - -(m 1 3 * scale) * Real.sin (-20 * Real.pi / 180))
    (θ * Real.pi / 180) (Or.inl hfront)
  refine ⟨k, ?_⟩
  rw [observed_bearing_eq, observed_bearing_eq, hk]
  have hpi := Real.pi_ne_zero
  simp only [zero_mul, zero_div, Real.sin_zero, Real.cos_zero, mul_zero, mul_one, zero_add,
    sub_zero]
  field_simp
  ring

/-- The observed bearing lies in `(-180, 180]`. -/
lemma observed_bearing_range (camera_TF : camera_transform ℝ) (m : Nat → Nat → ℝ)
    (scale : ℝ) :
    -180 < observed_bearing camera_TF m scale ∧ observed_bearing camera_TF m scale ≤ 180 := by
  have hpi := Real.pi_pos
  simp only [observed_bearing, atan2]
  constructor
  · have h := Complex.neg_pi_lt_arg
      (⟨((camera_TF.world_from_camera ⟨m 0 3 * scale, m 1 3 * scale, m 2 3 * scale⟩).sub
          camera_TF.camera).x,
        ((camera_TF.world_from_camera ⟨m 0 3 * scale, m 1 3 * scale, m 2 3 * scale⟩).sub
          camera_TF.camera).y⟩ : ℂ)
    have h2 := mul_lt_mul_of_pos_right h (div_pos (by norm_num : (0 : ℝ) < 180) hpi)
    have h3 : -Real.pi * (180 / Real.pi) = -180 := by field_simp; ring
    rw [h3] at h2
    exact h2
  · have h := Complex.arg_le_pi
      (⟨((camera_TF.world_from_camera ⟨m 0 3 * scale, m 1 3 * scale, m 2 3 * scale⟩).sub
          camera_TF.camera).x,
        ((camera_TF.world_from_camera ⟨m 0 3 * scale, m 1 3 * scale, m 2 3 * scale⟩).sub
          camera_TF.camera).y⟩ : ℂ)
    have h2 := mul_le_mul_of_nonneg_right h (div_pos (by norm_num : (0 : ℝ) < 180) hpi).le
    have h3 : Real.pi * (180 / Real.pi) = 180 := by field_simp
    rw [h3] at h2
    exact h2

end ConvergenceProofs

section ConvergenceTheorem

/-- Claim C15: a known reference marker (`side < 0`) is seen in front of the camera at a
fixed camera-frame position; once the loop has subtracted the observed bearing minus the
reference bearing from the correction of the stepper, the raw angle being unchanged, the
camera transform built from the new `get_angle_deg` maps the same position to the
reference bearing up to whole turns of 360 degrees; when the reference bearing lies in
`(-180, 180]`, the range of the bearings computed with `atan2`, the bearing observed
next is the reference bearing itself and the next frame leaves the correction, and the
whole stepper state, as it is. -/
theorem correction_converges (cfg : Config ℝ) (s : LoopState ℝ) (m : Nat → Nat → ℝ)
    (ID : Int) (hcolor : cfg.do_color = true)
    (hknown : ¬ (cfg.get_marker_info ID).true_size < 0)
    (href : (cfg.get_marker_info ID).side < 0)
    (hfront : 0 < m 2 3 * (cfg.get_marker_info ID).true_size) :
    (after_sighting cfg s m ID).stepper.camera_Z_angle = s.stepper.camera_Z_angle
    ∧ (after_sighting cfg s m ID).stepper.angle_correction
        = s.stepper.angle_correction
          - (observed_bearing (cycle_camera_TF cfg s) m (cfg.get_marker_info ID).true_size
              - (cfg.get_marker_info ID).shift.z)
    ∧ (∃ k : ℤ,
        observed_bearing (cycle_camera_TF cfg (after_sighting cfg s m ID)) m
            (cfg.get_marker_info ID).true_size
          = (cfg.get_marker_info ID).shift.z + 360 * k)
    ∧ (-180 < (cfg.get_marker_info ID).shift.z → (cfg.get_marker_info ID).shift.z ≤ 180 →
        observed_bearing (cycle_camera_TF cfg (after_sighting cfg s m ID)) m
            (cfg.get_marker_info ID).true_size
          = (cfg.get_marker_info ID).shift.z
        ∧ (after_sighting cfg (after_sighting cfg s m ID) m ID).stepper
          = (after_sighting cfg s m ID).stepper) := by
  have hst : (after_sighting cfg s m ID).stepper
      = { s.stepper with angle_correction := s.stepper.angle_correction
            - (observed_bearing (cycle_camera_TF cfg s) m (cfg.get_marker_info ID).true_size
                - (cfg.get_marker_info ID).shift.z) } :=
    color_block_reference cfg s (cycle_camera_TF cfg s) m ID hcolor hknown href
  have hangle : (after_sighting cfg s m ID).stepper.get_angle_deg
      = s.stepper.get_angle_deg
        - (observed_bearing (cycle_camera_TF cfg s) m (cfg.get_marker_info ID).true_size
            - (cfg.get_marker_info ID).shift.z) := by
    rw [hst]
    simp only [stepper_controller.get_angle_deg]
    ring
  obtain ⟨k0, hk0⟩ := observed_bearing_pan cfg.field_x_beacon cfg.field_y_beacon
    s.stepper.get_angle_deg m (cfg.get_marker_info ID).true_size (ne_of_gt hfront)
  obtain ⟨k1, hk1⟩ := observed_bearing_pan cfg.field_x_beacon cfg.field_y_beacon
    (after_sighting cfg s m ID).stepper.get_angle_deg m (cfg.get_marker_info ID).true_size
    (ne_of_gt hfront)
  have hturns : observed_bearing (cycle_camera_TF cfg (after_sighting cfg s m ID)) m
        (cfg.get_marker_info ID).true_size
      = (cfg.get_marker_info ID).shift.z + 360 * ((k1 - k0 : ℤ) : ℝ) := by
    have h0 : observed_bearing (cycle_camera_TF cfg s) m (cfg.get_marker_info ID).true_size
        = observed_bearing
            (camera_transform.ctor cfg.field_x_beacon cfg.field_y_beacon 0) m
            (cfg.get_marker_info ID).true_size
          + s.stepper.get_angle_deg + 360 * k0 := hk0
    have h1 : observed_bearing (cycle_camera_TF cfg (after_sighting cfg s m ID)) m
          (cfg.get_marker_info ID).true_size
        = observed_bearing
            (camera_transform.ctor cfg.field_x_beacon cfg.field_y_beacon 0) m
            (cfg.get_marker_info ID).true_size
          + (after_sighting cfg s m ID).stepper.get_angle_deg + 360 * k1 := hk1
    rw [h1, hangle]
    push_cast
    linarith
  refine ⟨?_, ?_, ⟨k1 - k0, hturns⟩, ?_⟩
  · rw [hst]
  · rw [hst]
  · intro hlo hhi
    have hrange := observed_bearing_range (cycle_camera_TF cfg (after_sighting cfg s m ID)) m
      (cfg.get_marker_info ID).true_size
    rw [hturns] at hrange
    have hzero : k1 - k0 = 0 := by
      have h1 : ((k1 - k0 : ℤ) : ℝ) < 1 := by linarith [hrange.2]
      have h2 : (-1 : ℝ) < ((k1 - k0 : ℤ) : ℝ) := by linarith [hrange.1]
      have h3 : k1 - k0 < 1 := by exact_mod_cast h1
      have h4 : -1 < k1 - k0 := by exact_mod_cast h2
      omega
    have hsame : observed_bearing (cycle_camera_TF cfg (after_sighting cfg s m ID)) m
          (cfg.get_marker_info ID).true_size
        = (cfg.get_marker_info ID).shift.z := by
      rw [hturns, hzero]
      simp
    refine ⟨hsame, ?_⟩
    have hst2 : (after_sighting cfg (after_sighting cfg s m ID) m ID).stepper
        = { (after_sighting cfg s m ID).stepper with
            angle_correction := (after_sighting cfg s m ID).stepper.angle_correction
              - (observed_bearing (cycle_camera_TF cfg (after_sighting cfg s m ID)) m
                  (cfg.get_marker_info ID).true_size
                - (cfg.get_marker_info ID).shift.z) } :=
      color_block_reference cfg (after_sighting cfg s m ID)
        (cycle_camera_TF cfg (after_sighting cfg s m ID)) m ID hcolor hknown href
    rw [hst2, hsame, sub_self, sub_zero]

/-- Claim C15 on a concrete frame: from `facing_ten_state` the reference marker 0 of
reference bearing 0, seen straight ahead, is observed at bearing 0 once the correction
has been applied, and the next frame leaves the stepper state as it is. -/
theorem correction_converges_witness :
    ((software_config : Config ℝ).do_color = true
      ∧ ¬ ((software_config : Config ℝ).get_marker_info 0).true_size < 0
      ∧ ((software_config : Config ℝ).get_marker_info 0).side < 0
      ∧ 0 < (marker_ahead 2 3 : ℝ) * ((software_config : Config ℝ).get_marker_info 0).true_size)
    ∧ observed_bearing
        (cycle_camera_TF software_config (after_sighting software_config facing_ten_state
          marker_ahead 0)) marker_ahead
        ((software_config : Config ℝ).get_marker_info 0).true_size
      = ((software_config : Config ℝ).get_marker_info 0).shift.z
    ∧ (after_sighting software_config
        (after_sighting software_config facing_ten_state marker_ahead 0) marker_ahead 0).stepper
      = (after_sighting software_config facing_ten_state marker_ahead 0).stepper := by
  have hcat := example_catalog_zero
  have hfront : 0 < (marker_ahead 2 3 : ℝ)
      * ((software_config : Config ℝ).get_marker_info 0).true_size := by
    rw [hcat.2.2.1]
    norm_num [marker_ahead]
  have hz : ((software_config : Config ℝ).get_marker_info 0).shift.z = 0 := hcat.2.2.2
  exact ⟨⟨rfl, hcat.1, hcat.2.1, hfront⟩,
    (correction_converges software_config facing_ten_state marker_ahead 0 rfl hcat.1 hcat.2.1
      hfront).2.2.2 (by rw [hz]; norm_num) (by rw [hz]; norm_num)⟩

end ConvergenceTheorem

/-! ## The later properties on concrete inputs -/

section ConcreteLater

/-- Claim C12 fails as stated: the request `T` for 10.5 degrees at `idle_state` arms the
scan with the target 10, which is not the angle of the request. -/
theorem scan_target_truncated_counterexample :
    (⟨'T', 21 / 2⟩ : aurora_beacon_command ℝ).letter.toUpper = 'T'
    ∧ ∃ s1, handle_request example_config (idle_state : LoopState ℝ) ⟨'T', 21 / 2⟩ []
          = some (s1, [])
        ∧ s1.obstacle_scan = 18
        ∧ s1.obstacle_scan_target = 10
        ∧ ((s1.obstacle_scan_target : Int) : ℝ) ≠ 21 / 2 := by
  have ht : float_to_int ((21 : ℝ) / 2) = 10 := by
    rw [float_to_int_of_fits _ (by norm_num) (by norm_num)]
    exact trunc_eq_of_le_of_lt _ 10 (by norm_num) (by norm_num) (by norm_num)
  refine ⟨by decide, _, rfl, rfl, ht, ?_⟩
  show ((float_to_int ((21 : ℝ) / 2) : Int) : ℝ) ≠ 21 / 2
  rw [ht]
  norm_num

/-- Claim C12 on concrete requests: the request `T` for 0 degrees at `idle_state`, with the
stepper connected, writes the byte 81 (73 degrees above the stepper zero are 81.1 steps)
and is followed by no response in its cycle, which leaves 17 frames of the 18; the request
`h` that the stepper confirms at the second poll is answered once and changes neither the
scan counter nor the grid; the request `t` for 30 degrees stores the target 30. -/
theorem scan_command_arming_witness :
    ((⟨'T', 0⟩ : aurora_beacon_command ℝ).letter.toUpper = 'T'
      ∧ (example_config : Config ℝ).pan_stepper = true
      ∧ (-2147483649 : ℝ) < ((⟨'T', 0⟩ : aurora_beacon_command ℝ).angle
          - (idle_state : LoopState ℝ).stepper.angle_correction + 73) * (400 / 360)
      ∧ ((⟨'T', 0⟩ : aurora_beacon_command ℝ).angle
          - (idle_state : LoopState ℝ).stepper.angle_correction + 73) * (400 / 360) < 2147483648
      ∧ (⟨'h', 0⟩ : aurora_beacon_command ℝ).letter.toUpper = 'H'
      ∧ ∃ c ∈ (home_request_input : CycleInput ℝ).home_wait, c ≠ [])
    ∧ ((idle_state : LoopState ℝ).stepper.absolute_seek (example_config : Config ℝ).pan_stepper
          (idle_state : LoopState ℝ).serial (⟨'T', 0⟩ : aurora_beacon_command ℝ).angle).2.tx
        = (idle_state : LoopState ℝ).serial.tx ++ [81]
    ∧ (∃ s1 ev, cycle example_config idle_state scan_request_input = CycleResult.next s1 ev
        ∧ ev.countP Event.is_response = 0 ∧ s1.obstacle_scan = 17)
    ∧ (∃ s1, handle_request (example_config : Config ℝ) idle_state ⟨'h', 0⟩
          (home_request_input : CycleInput ℝ).home_wait
            = some (s1, [Event.response_empty])
        ∧ s1.obstacle_scan = (idle_state : LoopState ℝ).obstacle_scan
        ∧ s1.obstacle_scan_target = (idle_state : LoopState ℝ).obstacle_scan_target
        ∧ s1.obstacles = (idle_state : LoopState ℝ).obstacles
        ∧ s1.stepper.angle_correction = 0)
    ∧ ((⟨'t', 30⟩ : aurora_beacon_command ℝ).letter.toUpper = 'T'
        ∧ float_to_int (⟨'t', 30⟩ : aurora_beacon_command ℝ).angle = 30) := by
  have hconf : ∃ c ∈ (home_request_input : CycleInput ℝ).home_wait, c ≠ [] :=
    ⟨[0], by simp [home_request_input], by simp⟩
  have hpan : (example_config : Config ℝ).pan_stepper = true := rfl
  have hlo : (-2147483649 : ℝ) < ((⟨'T', 0⟩ : aurora_beacon_command ℝ).angle
      - (idle_state : LoopState ℝ).stepper.angle_correction + 73) * (400 / 360) := by
    norm_num [idle_state]
  have hhi : ((⟨'T', 0⟩ : aurora_beacon_command ℝ).angle
      - (idle_state : LoopState ℝ).stepper.angle_correction + 73) * (400 / 360)
        < 2147483648 := by
    norm_num [idle_state]
  have htr : trunc (((⟨'T', 0⟩ : aurora_beacon_command ℝ).angle
      - (idle_state : LoopState ℝ).stepper.angle_correction + 73) * (400 / 360)) = 81 :=
    trunc_eq_of_le_of_lt _ 81 (by norm_num) (by norm_num [idle_state])
      (by norm_num [idle_state])
  obtain ⟨-, hlink, -, -, -, -, -, -, -, hcyc⟩ :=
    (scan_command_arming example_config idle_state ⟨'T', 0⟩ []).1 (by decide)
  obtain ⟨-, -, b, htx, -, hval⟩ := hlink hpan
  have hb := hval hlo hhi
  rw [htr] at hb
  have hb81 : b = 81 := by omega
  rw [hb81] at htx
  exact ⟨⟨by decide, hpan, hlo, hhi, by decide, hconf⟩, htx,
    hcyc scan_request_input rfl rfl scan_request_input_goes_on,
    (scan_command_arming example_config idle_state ⟨'h', 0⟩
      (home_request_input : CycleInput ℝ).home_wait).2.2.2.1 (by decide)
      (Or.inr (Or.inr hconf)),
    by decide,
    ((scan_command_arming example_config idle_state ⟨'t', 30⟩ []).1
      (by decide)).2.2.2.2.2.2.2.2.1 30 (by norm_num) (by norm_num) (by norm_num)⟩

/-- Claim C13 on a concrete sighting: the marker 7, unknown to `example_catalog` (size -1),
leaves a fresh watcher as it is. -/
theorem unknown_marker_rejected_witness :
    (example_catalog 7 : marker_info_t ℝ).true_size < 0
    ∧ (marker_watcher_print.ctor : marker_watcher_print ℝ).found_marker example_catalog
        ten_camera_TF marker_ahead 7 = marker_watcher_print.ctor := by
  have h : (example_catalog 7 : marker_info_t ℝ).true_size < 0 := by
    simp [example_catalog]
  exact ⟨h, (unknown_marker_rejected example_catalog ten_camera_TF marker_watcher_print.ctor
    marker_ahead 7).1 h⟩

/-- Claim C14 on concrete poses: a pose of confidence 1 is drawn and, as a marker slot,
printed and drawn; a slot of confidence 0.05 puts out nothing. -/
theorem display_confidence_threshold_witness :
    ((1 : ℝ) / 10 ≤ (pose_with_confidence 1 : robot_pose ℝ).confidence
      ∧ (pose_with_confidence (5 / 100) : robot_pose ℝ).confidence < 1 / 10)
    ∧ display_marker_slot 2 (pose_with_confidence 1 : robot_pose ℝ)
        = [Shown.printf_marker 2, Shown.pose_print (pose_with_confidence 1)]
          ++ robot_display_pose (pose_with_confidence 1)
    ∧ display_marker_slot 0 (pose_with_confidence (5 / 100) : robot_pose ℝ) = [] := by
  have h1 : (1 : ℝ) / 10 ≤ (pose_with_confidence 1 : robot_pose ℝ).confidence := by
    norm_num [pose_with_confidence]
  have h2 : (pose_with_confidence (5 / 100) : robot_pose ℝ).confidence < 1 / 10 := by
    norm_num [pose_with_confidence]
  exact ⟨⟨h1, h2⟩,
    (display_confidence_threshold 0 0 threshold_markers (pose_with_confidence 1) 2).2.2.2.1 h1,
    (display_confidence_threshold 0 0 threshold_markers (pose_with_confidence (5 / 100))
      0).2.2.1 h2⟩

/-- Claim C16 on a concrete seek: from the stepper zero, without correction, the seek to
10 degrees asks for 92.2 steps; the byte written is reported back, and the angle read
afterwards lies in `(9.1, 10]`. -/
theorem seek_report_quantization_witness :
    ((0 : ℚ) ≤ (10 - (idle_state : LoopState ℚ).stepper.angle_correction + 73) * (400 / 360)
      ∧ (10 - (idle_state : LoopState ℚ).stepper.angle_correction + 73) * (400 / 360) ≤ 250)
    ∧ ∃ b : Nat,
        ((idle_state : LoopState ℚ).stepper.absolute_seek true (idle_state : LoopState ℚ).serial 10).2.tx
          = (idle_state : LoopState ℚ).serial.tx ++ [b]
        ∧ b ≤ 250
        ∧ 10 - 9 / 10
            < (((idle_state : LoopState ℚ).stepper.absolute_seek true (idle_state : LoopState ℚ).serial
                10).1.serial_poll true
              { ((idle_state : LoopState ℚ).stepper.absolute_seek true (idle_state : LoopState ℚ).serial
                  10).2 with
                rx := ((idle_state : LoopState ℚ).stepper.absolute_seek true (idle_state : LoopState ℚ).serial
                  10).2.rx ++ [b] }).2.1.get_angle_deg
        ∧ (((idle_state : LoopState ℚ).stepper.absolute_seek true (idle_state : LoopState ℚ).serial
                10).1.serial_poll true
              { ((idle_state : LoopState ℚ).stepper.absolute_seek true (idle_state : LoopState ℚ).serial
                  10).2 with
                rx := ((idle_state : LoopState ℚ).stepper.absolute_seek true (idle_state : LoopState ℚ).serial
                  10).2.rx ++ [b] }).2.1.get_angle_deg ≤ 10 := by
  have h0 : (0 : ℚ) ≤ (10 - (idle_state : LoopState ℚ).stepper.angle_correction + 73)
      * (400 / 360) := by
    norm_num [idle_state]
  have h1 : (10 - (idle_state : LoopState ℚ).stepper.angle_correction + 73) * (400 / 360)
      ≤ 250 := by
    norm_num [idle_state]
  obtain ⟨b, hb1, hb2, _, hb4, hb5, _⟩ :=
    seek_report_quantization (idle_state : LoopState ℚ).stepper
      (idle_state : LoopState ℚ).serial 10 h0 h1
  exact ⟨⟨h0, h1⟩, b, hb1, hb2, hb4, hb5⟩

/-- Claim C18 on concrete states, for `state_last = 24`: the state 8 is named
`scan_obstacles`, the values 24 and -1 are named `unknown_invalid`. -/
theorem state_to_string_total_witness :
    state_to_string 24 8 = some "scan_obstacles"
    ∧ state_to_string 24 24 = some "unknown_invalid"
    ∧ state_to_string 24 (-1) = some "unknown_invalid" := by
  obtain ⟨name, h1, _, h3⟩ :=
    (state_to_string_total 24 8).2.2.1 rfl (by decide) (by decide)
  have hname : name = "scan_obstacles" := by
    have h4 : state_names[(8 : Int).toNat]? = some "scan_obstacles" := rfl
    rw [h4] at h3
    exact (Option.some.inj h3).symm
  rw [hname] at h1
  exact ⟨h1, (state_to_string_total 24 24).1 (Or.inr (by decide)),
    (state_to_string_total 24 (-1)).1 (Or.inl (by decide))⟩

end ConcreteLater

/-! ## The seek on concrete angles -/

section ConcreteSeek

/-- Claim C9 fails as stated: with the stepper connected and no correction, the seek to
10^10 degrees asks for 11111111192.2 steps, which no `int` holds; the conversion delivers
`INT_MIN` and the byte written is 0, whereas the truncated step count clamped into
`[0,250]` is 250. -/
theorem absolute_seek_overflow_counterexample :
    ((idle_state : LoopState ℚ).stepper.absolute_seek true (idle_state : LoopState ℚ).serial
        10000000000).2.tx = (idle_state : LoopState ℚ).serial.tx ++ [0]
    ∧ (max 0 (min 250 (trunc (((10000000000 : ℚ)
        - (idle_state : LoopState ℚ).stepper.angle_correction + 73) * (400 / 360)))) :
          Int).toNat = 250
    ∧ ((idle_state : LoopState ℚ).stepper.absolute_seek true (idle_state : LoopState ℚ).serial
        10000000000).2.tx
      ≠ (idle_state : LoopState ℚ).serial.tx ++ [(max 0 (min 250 (trunc (((10000000000 : ℚ)
        - (idle_state : LoopState ℚ).stepper.angle_correction + 73) * (400 / 360)))) :
          Int).toNat] := by
  have hcorr : (idle_state : LoopState ℚ).stepper.angle_correction = 0 := rfl
  have htr : trunc (((10000000000 : ℚ) - 0 + 73) * (400 / 360)) = 11111111192 :=
    trunc_eq_of_le_of_lt _ 11111111192 (by norm_num) (by norm_num) (by norm_num)
  have hconv : float_to_int (((10000000000 : ℚ) - 0 + 73) * (400 / 360)) = -2147483648 := by
    unfold float_to_int
    rw [htr]
    simp [INT_MIN, INT_MAX]
  have hsub : (10000000000 : ℚ) - 0 - stepper_angle_zero = 10000000000 - 0 + 73 := by
    unfold stepper_angle_zero; ring
  have hseek : ((idle_state : LoopState ℚ).stepper.absolute_seek true
      (idle_state : LoopState ℚ).serial 10000000000).2.tx
        = (idle_state : LoopState ℚ).serial.tx ++ [0] := by
    simp only [stepper_controller.absolute_seek, if_true, hcorr, hsub, stepper_angle_to_step,
      hconv]
    rw [(seek_steps_tx _ _).1]
    rfl
  have hclaim : (max 0 (min 250 (trunc (((10000000000 : ℚ)
      - (idle_state : LoopState ℚ).stepper.angle_correction + 73) * (400 / 360)))) :
        Int).toNat = 250 := by
    rw [hcorr, htr]
    rfl
  refine ⟨hseek, hclaim, ?_⟩
  rw [hseek, hclaim]
  simp

/-- Claim C9 on a concrete seek: from `idle_state`, without correction, the seek to 10
degrees asks for 92.2 steps, which fit an `int`, and the byte written is 92. -/
theorem absolute_seek_writes_clamped_byte_witness :
    ((-2147483649 : ℚ) < (10 - (idle_state : LoopState ℚ).stepper.angle_correction + 73)
        * (400 / 360)
      ∧ (10 - (idle_state : LoopState ℚ).stepper.angle_correction + 73) * (400 / 360)
        < 2147483648)
    ∧ ((idle_state : LoopState ℚ).stepper.absolute_seek true (idle_state : LoopState ℚ).serial
        10).2.tx = (idle_state : LoopState ℚ).serial.tx ++ [92] := by
  have hlo : (-2147483649 : ℚ) < (10 - (idle_state : LoopState ℚ).stepper.angle_correction
      + 73) * (400 / 360) := by
    norm_num [idle_state]
  have hhi : (10 - (idle_state : LoopState ℚ).stepper.angle_correction + 73) * (400 / 360)
      < 2147483648 := by
    norm_num [idle_state]
  have htr : trunc ((10 - (idle_state : LoopState ℚ).stepper.angle_correction + 73)
      * (400 / 360)) = 92 :=
    trunc_eq_of_le_of_lt _ 92 (by norm_num) (by norm_num [idle_state])
      (by norm_num [idle_state])
  obtain ⟨⟨b, htx, -, -, hval⟩, -⟩ :=
    absolute_seek_writes_clamped_byte (idle_state : LoopState ℚ).stepper
      (idle_state : LoopState ℚ).serial 10
  have hb := hval hlo hhi
  rw [htr] at hb
  have hb92 : b = 92 := by omega
  rw [hb92] at htx
  exact ⟨⟨hlo, hhi⟩, htx⟩

end ConcreteSeek

end Realsense
